import Mathlib

/-!
rastertozebrakiosk: a shallow embedding of the CUPS raster filter.

The filter `filter/rastertozebrakiosk.c` turns CUPS raster pages into the escape-code
stream of the Zebra kiosk printers (TTP 20x0, 21x0, 7030, 8200 and KR203).

Conventions of the embedding:

* the byte stream written to `stdout` is a `List Nat`, every element below 256;
* a C `int` is an `Int`; a value handed to `putchar` or to a `%c` conversion is
  reduced modulo 256 (`to_byte`), which is what the C library does with it; where
  more than the low byte of an `int` product is used (`set_bm_params`), the product
  is reduced to 32 bits (`int32`), as the compiled code leaves it;
* an unsigned 32-bit header field is a `Nat`;
* an index outside a command table, and a read or write past the end of the line
  buffer that `main` allocates, is the result `none`;
* the arrays `width` and `height` of `get_pagewidth_pageheight` are the texts stored
  in them: the loop stores without testing a bound, and every character is kept;
* a `double` or `float` is the rational number it denotes (`c_float`), with the
  roundings of IEEE 754 binary64 and binary32.
-/

namespace Zebra

/-! ## Output primitives -/

/-- The byte that `putchar(c)` or `printf("%c", c)` writes for an `int` argument:
the argument converted to `unsigned char`. -/
def to_byte (c : Int) : Nat := (c % 256).toNat

/-- The record `struct cups_settings_s`.  The two `float` fields `page_width` and
`page_height` are only written by `get_pagewidth_pageheight` and read by nothing but
a diagnostic message; they are returned by that function instead of being stored. -/
structure cups_settings_s where
  model_number : Int
  bidirectional : Int
  page_mode : Int
  black_mark_min : Int
  black_mark_max : Int
  black_mark_cut_pos : Int
  reverse : Int
  eject : Int
  print_speed : Int
  burn_time : Int
  retract_behavior : Int
  focus_area : Int
  page_cut_type : Int
  clear_presenter : Int
  partial_cut : Int
  loop_length : Int
  vert_mode : Int
  pull_detect : Int
  clr_pres : Int
  resolution : Int
  resolution_x : Int
  resolution_y : Int
  bytes_per_scanline : Int
  bytes_per_scanline_std : Int
  last_page : Int

/-- The record `struct cups_command_s`: a length and the command bytes. -/
structure cups_command_s where
  length : Nat
  command : List Nat
deriving DecidableEq, Repr

/-- Table entry `endPageCommand = { 2, { 0x1b, 0x1e } }`. -/
def endPageCommand : cups_command_s := ⟨2, [0x1b, 0x1e]⟩

/-- Table entry `endJobCommand = { 2, { 0x1b, 0x1e } }`. -/
def endJobCommand : cups_command_s := ⟨2, [0x1b, 0x1e]⟩

/-- Table entry `clear_presenterCommand = { 1, { 0x05 } }`. -/
def clear_presenterCommand : cups_command_s := ⟨1, [0x05]⟩

/-- The function `output_command`: `putchar(output.command[i])` for `i < output.length`. -/
def output_command (output : cups_command_s) : List Nat :=
  (List.range output.length).map (fun i => output.command.getD i 0)

/-- The loop `for (i = n; i > 0; i--) printf("\x1bJ%c", 255);` shared by `do_advance`
and by the blank-run flush of `main`. -/
def esc_J_255 : Nat → List Nat
  | 0 => []
  | i + 1 => [0x1b, 0x4a, 255] ++ esc_J_255 i

/-! ## Page and job commands -/

/-- The function `do_reverse`: `ESC j` with the reverse amount times eight, unless the
amount is zero. -/
def do_reverse (settings : cups_settings_s) : List Nat :=
  if settings.reverse ≠ 0 then
    let reverse := settings.reverse * 8
    [0x1b, 0x6a, to_byte reverse]
  else []

/-- The advance amount chosen by the `switch` of `do_advance`. -/
def advance_amount (model_number : Int) : Nat :=
  if model_number = 8200 then 19 * 8
  else if model_number = 2000 ∨ model_number = 2100 ∨ model_number = 203 then 12 * 8
  else if model_number = 7030 then 17 * 8
  else 19 * 8

/-- The function `do_advance`. -/
def do_advance (settings : cups_settings_s) : List Nat :=
  let advance := advance_amount settings.model_number
  let J1 := advance / 256
  let J2 := advance % 256
  esc_J_255 J1 ++ [0x1b, 0x4a, J2]

/-- The function `do_eject`. -/
def do_eject (settings : cups_settings_s) : List Nat :=
  let eject := settings.eject
  if eject < 0 ∧ settings.model_number ≠ 2100 then
    [0x1b, 0x0c, 0x1e]
  else
    [0x1b, 0x0c, to_byte eject]

/-- The header fields of `cups_page_header2_t` that the filter reads. -/
structure cups_page_header2_t where
  cupsHeight : Nat
  cupsBytesPerLine : Nat
deriving DecidableEq, Repr

/-- The function `page_setup`. -/
def page_setup (settings : cups_settings_s) (header : cups_page_header2_t) : List Nat :=
  (if settings.page_mode = 1 ∨ settings.page_mode = 2 then
    if settings.model_number = 203 then
      let page_high := header.cupsHeight / 8 / 256
      let page_low := header.cupsHeight / 8 % 256
      [0x1b, 0x26, 0x70, 0x25, page_high % 256, page_low % 256]
    else
      let page_high := header.cupsHeight / 256
      let page_low := header.cupsHeight % 256
      [0x1b, 0x26, 0x50, 0x25, page_high % 256] ++ [0x1b, 0x26, 0x50, 0x26, page_low % 256]
  else
    if settings.model_number = 203 then
      [0x1b, 0x26, 0x70, 0x25] ++ [0x00] ++ [0x5c]
    else
      [0x1b, 0x26, 0x50, 0x25] ++ [0x00] ++ [0x1b, 0x26, 0x50, 0x26, 0x01])
  ++ do_reverse settings

/-- The function `end_page`. -/
def end_page (settings : cups_settings_s) : List Nat :=
  do_advance settings ++
  (if settings.page_cut_type = 1 then
    if settings.partial_cut = 0 then
      output_command endPageCommand
    else
      if settings.model_number = 203 then
        [0x1f, to_byte settings.partial_cut]
      else
        [0x1f]
  else [])

/-- The function `end_job`. -/
def end_job (settings : cups_settings_s) : List Nat :=
  (if settings.page_cut_type = 0 ∨ settings.partial_cut ≠ 0 then
    output_command endPageCommand
  else []) ++
  (if settings.clear_presenter = 1 then
    output_command clear_presenterCommand
  else
    do_eject settings)

/-- The loop `for (i = 0; i < n; i++) putchar(0);` of `cancel_job`, counted down. -/
def putchar_zero_loop : Nat → List Nat
  | 0 => []
  | n + 1 => 0 :: putchar_zero_loop n

/-- The function `cancel_job`, applied to the global settings record: the bytes
written before `exit(0)`. -/
def cancel_job (settings : cups_settings_s) : List Nat :=
  putchar_zero_loop 310 ++ end_page settings ++ end_job settings


/-! ## Settings resolution -/

/-- The record left by `memset(settings, 0x00, sizeof(struct cups_settings_s))`. -/
def zero_settings : cups_settings_s :=
  { model_number := 0, bidirectional := 0, page_mode := 0, black_mark_min := 0,
    black_mark_max := 0, black_mark_cut_pos := 0, reverse := 0, eject := 0,
    print_speed := 0, burn_time := 0, retract_behavior := 0, focus_area := 0,
    page_cut_type := 0, clear_presenter := 0, partial_cut := 0, loop_length := 0,
    vert_mode := 0, pull_detect := 0, clr_pres := 0, resolution := 0,
    resolution_x := 0, resolution_y := 0, bytes_per_scanline := 0,
    bytes_per_scanline_std := 0, last_page := 0 }

/-- The `switch (a_model_number)` of `initialize_settings`: the standard number of
bytes per scan line of a model; an unlisted model keeps the zero of the `memset`. -/
def model_bytes_per_scanline (a_model_number : Int) : Int :=
  if a_model_number = 8200 then 216
  else if a_model_number = 2000 ∨ a_model_number = 2100 ∨ a_model_number = 203 then 80
  else if a_model_number = 7030 then 104
  else 0

/-- The function `initialize_settings`, without the page-size token (see
`get_pagewidth_pageheight`).  `ppd_model_number` is `ppd->model_number` and
`choice_index name` is the value of `get_option_choice_index(name, ppd)`. -/
def initialize_settings (ppd_model_number : Int) (choice_index : String → Int) :
    cups_settings_s :=
  let a_model_number := ppd_model_number
  let s : cups_settings_s := { zero_settings with model_number := ppd_model_number }
  let s := { s with page_mode := choice_index "pageMode" }
  let s := { s with bidirectional := choice_index "BidiPrinting" }
  let s := { s with page_cut_type := choice_index "PageCutType" }
  let s := { s with resolution := choice_index "Resolution" }
  let s :=
    if a_model_number = 203 then
      { s with print_speed := choice_index "PrintSpeed",
               burn_time := choice_index "Darkness",
               retract_behavior := choice_index "EjectOptions",
               black_mark_min := 0, black_mark_max := 0, black_mark_cut_pos := 0,
               vert_mode := 0, pull_detect := 0 }
    else
      { s with print_speed := choice_index "PrintSpeed",
               burn_time := choice_index "BurnTime",
               black_mark_min := choice_index "BMMin",
               black_mark_max := choice_index "BMMax",
               black_mark_cut_pos := choice_index "BMCutPos",
               retract_behavior := choice_index "RetractOptions",
               vert_mode := choice_index "VertMode",
               pull_detect := choice_index "PullDetect" }
  let s := { s with clear_presenter := choice_index "ClearPresenter" }
  let s := { s with reverse := choice_index "Reverse" }
  let s := { s with eject := choice_index "Eject" }
  let s := { s with clr_pres := 1 }
  let s := { s with loop_length := choice_index "LoopLength" }
  let s := { s with partial_cut := choice_index "PartialCut" }
  { s with bytes_per_scanline := model_bytes_per_scanline a_model_number,
           bytes_per_scanline_std := model_bytes_per_scanline a_model_number }

/-! ## The page loop of `main` -/

/-- The per-page update of `settings.bytes_per_scanline` in `main`.  The comparison
`header.cupsBytesPerLine <= settings.bytes_per_scanline` is made in `unsigned int`,
so the `int` on the right is taken modulo 2^32. -/
def negotiate_bytes_per_scanline (settings : cups_settings_s)
    (header : cups_page_header2_t) : cups_settings_s :=
  if header.cupsBytesPerLine ≤ (settings.bytes_per_scanline % 2 ^ 32).toNat then
    { settings with bytes_per_scanline := (header.cupsBytesPerLine : Int) }
  else
    { settings with bytes_per_scanline := settings.bytes_per_scanline_std }

/-- The flush of the pending blank-line run in the line loop of `main`
(`if (num_blank_scan_lines > 0) { ... }`). -/
def flush_blank_lines (num_blank_scan_lines : Nat) : List Nat :=
  if num_blank_scan_lines > 0 then
    let n1 := num_blank_scan_lines / 256
    let n2 := num_blank_scan_lines % 256
    esc_J_255 n1 ++ [0x1b, 0x4a, n2]
  else []

/-- The scan `for (i = bytes_per_scanline - 1; i >= 0; i--) if (raster_data[i] != 0) break;`
with the first argument counting the bytes still to be looked at: the result is the
final value of `i`, which is `-1` when no nonzero byte was met. -/
def scan_last_black (raster_data : List Nat) : Nat → Int
  | 0 => -1
  | i + 1 =>
    if raster_data.getD i 0 ≠ 0 then (i : Int) else scan_last_black raster_data i

/-- One turn of the line loop of `main` after `cupsRasterReadPixels` has filled
`raster_data`: the bytes written and the new value of `num_blank_scan_lines`.  The
scan starts at index `bytes_per_scanline - 1`; when that lies past the end of the
buffer the read is outside the allocation: `none`. -/
def encode_line (raster_data : List Nat) (bytes_per_scanline : Int)
    (num_blank_scan_lines : Nat) : Option (List Nat × Nat) :=
  if bytes_per_scanline.toNat ≤ raster_data.length then
    let i := scan_last_black raster_data bytes_per_scanline.toNat
    if i = -1 then
      some ([], num_blank_scan_lines + 1)
    else
      let last_black_pixel := i + 1
      some (flush_blank_lines num_blank_scan_lines
        ++ [0x1b, 0x73]
        ++ [to_byte (if last_black_pixel > 254 then 255 else last_black_pixel)]
        ++ (raster_data.take last_black_pixel.toNat).map (fun b => b % 256),
       0)
  else none

/-- A page of the raster stream: its header and the scan lines that successive calls
of `cupsRasterReadPixels` deliver (a list shorter than `cupsHeight` is a stream that
ends early). -/
structure raster_page where
  header : cups_page_header2_t
  lines : List (List Nat)
deriving DecidableEq, Repr

/-- The call `cupsRasterReadPixels(ras, raster_data, header.cupsBytesPerLine)`: the line
overwrites the front of the buffer.  A line longer than the buffer would be written
past the allocation: `none`. -/
def read_pixels (raster_data : List Nat) (line : List Nat) : Option (List Nat) :=
  if line.length ≤ raster_data.length then
    some (line ++ raster_data.drop line.length)
  else none

/-- The line loop `for (y = 0; y < header.cupsHeight; y++)` of `main`; the first
argument counts the turns still to go.  The result is the page body and the buffer
as the page leaves it; `none` when a line is written, or the scan reads, past the
allocation. -/
def line_loop (bytes_per_scanline : Int) :
    Nat → List (List Nat) → List Nat → Nat → Option (List Nat × List Nat)
  | 0, _, raster_data, _ => some ([], raster_data)
  | _ + 1, [], raster_data, _ => some ([], raster_data)
  | y + 1, line :: rest, raster_data, num_blank_scan_lines =>
    match read_pixels raster_data line with
    | none => none
    | some buf =>
      match encode_line buf bytes_per_scanline num_blank_scan_lines with
      | none => none
      | some (bytes, num_blank) =>
        match line_loop bytes_per_scanline y rest buf num_blank with
        | none => none
        | some (out, buf1) => some (bytes ++ out, buf1)

/-- The page loop `while (cupsRasterReadHeader2(ras, &header))` of `main`: the bytes
written for the pages and the settings record after the last page.  `raster_data`
is `none` until the first page allocates it (the fresh block is taken as zeros). -/
def page_loop : cups_settings_s → Option (List Nat) → List raster_page →
    Option (List Nat × cups_settings_s)
  | settings, _, [] => some ([], settings)
  | settings, raster_data, page :: pages =>
    if page.header.cupsHeight = 0 ∨ page.header.cupsBytesPerLine = 0 then
      some ([], settings)
    else
      let buf := raster_data.getD (List.replicate page.header.cupsBytesPerLine 0)
      let setup := page_setup settings page.header
      let settings1 := { settings with last_page := 0 }
      let settings2 := negotiate_bytes_per_scanline settings1 page.header
      match line_loop settings2.bytes_per_scanline page.header.cupsHeight page.lines buf 0 with
      | none => none
      | some (body, buf1) =>
        match page_loop settings2 (some buf1) pages with
        | none => none
        | some (out, settings3) => some (setup ++ body ++ end_page settings2 ++ out, settings3)

/-- The values of `settings.bytes_per_scanline` with which the line loop of `main`
runs, page after page: the per-page update applied to each header in turn, up to the
first empty page, where the page loop stops. -/
def scan_widths : cups_settings_s → List cups_page_header2_t → List Int
  | _, [] => []
  | settings, header :: headers =>
    if header.cupsHeight = 0 ∨ header.cupsBytesPerLine = 0 then []
    else
      let settings2 := negotiate_bytes_per_scanline { settings with last_page := 0 } header
      settings2.bytes_per_scanline :: scan_widths settings2 headers

/-! ## The page-size token -/

/-- The test `(c >= '0') && (c <= '9')`. -/
def is_digit (c : Char) : Bool := decide (48 ≤ c.toNat) && decide (c.toNat ≤ 57)

/-- The variables of the parsing loop of `get_pagewidth_pageheight` when it ends:
`state` (0 = init, 1 = width, 2 = height, 3 = complete, 4 = fail) and the characters
stored so far in `width` and `height` (so `width_index` is `width.length`). -/
structure size_parse where
  state : Nat
  width : List Char
  height : List Char
deriving DecidableEq, Repr

/-- The loop `while (page_size[idx] != 0x00)` of `get_pagewidth_pageheight`, on the
characters from `idx` on.  The store `width[width_index++] = c` appends `c` to the
text of `width`; the loop tests no bound before it stores, and the text is kept
whole, whatever its length (the C arrays are `char[20]`). -/
def parse_page_size : List Char → Nat → List Char → List Char → size_parse
  | [], state, width, height => ⟨state, width, height⟩
  | c :: page_size, state, width, height =>
    if state = 0 then
      if c = 'X' then parse_page_size page_size 1 width height
      else ⟨4, width, height⟩
    else if state = 1 then
      if is_digit c then parse_page_size page_size 1 (width ++ [c]) height
      else if c = 'D' then parse_page_size page_size 1 (width ++ ['.']) height
      else if c = 'M' then parse_page_size page_size 1 width height
      else if c = 'Y' then parse_page_size page_size 2 width height
      else ⟨4, width, height⟩
    else if state = 2 then
      if is_digit c then parse_page_size page_size 2 width (height ++ [c])
      else if c = 'D' then parse_page_size page_size 2 width (height ++ ['.'])
      else if c = 'M' then ⟨3, width, height⟩
      else ⟨4, width, height⟩
    else ⟨4, width, height⟩

/-- The value of a string of decimal digits. -/
def digits_value (s : List Char) : Nat :=
  s.foldl (fun n c => 10 * n + (c.toNat - 48)) 0

/-- The number that `atof` reads in a text of digits and points (the only characters
the parser stores): the exact value of the longest leading numeral `digits[.digits]`,
0 when the text starts with no numeral. -/
def decimal_value (s : List Char) : ℚ :=
  let int_part := s.takeWhile is_digit
  match s.dropWhile is_digit with
  | '.' :: t =>
    let frac_part := t.takeWhile is_digit
    (digits_value int_part : ℚ) + (digits_value frac_part : ℚ) / (10 : ℚ) ^ frac_part.length
  | _ => (digits_value int_part : ℚ)

/-- A value of type `double` or `float` that is not negative: the rational number it
denotes, or the infinity that an overflow gives. -/
inductive c_float where
  | finite (value : ℚ)
  | infinite
deriving DecidableEq, Repr

/-- The number of times `n` can be halved before it is below 2, counted in at most
`fuel` steps. -/
def halvings : Nat → Nat → Nat
  | 0, _ => 0
  | fuel + 1, n => if 2 ≤ n then halvings fuel (n / 2) + 1 else 0

/-- The exponent `k` with `2^k <= n < 2^(k+1)`, for positive `n` (`n` halvings are
more than are needed). -/
def nat_log2 (n : Nat) : Nat := halvings n n

/-- The exponent `e` with `2^e <= a/b < 2^(e+1)`, for positive `a` and `b`. -/
def floor_log2 (a b : Nat) : Int :=
  if b ≤ a then (nat_log2 (a / b) : Int)
  else -((nat_log2 ((b - 1) / a) + 1 : Nat) : Int)

/-- The integer nearest to `n/d`, the even one of the two when `n/d` lies halfway. -/
def round_half_even (n d : Nat) : Nat :=
  let f := n / d
  let r := n % d
  if 2 * r < d then f
  else if d < 2 * r then f + 1
  else if f % 2 = 0 then f
  else f + 1

/-- Rounding of a rational `q >= 0` to the IEEE 754 binary format with `p` significant
bits and exponents from `emin` to `emax`, to nearest with ties to even: the spacing of
the format at `q` is `2^s`, below `2^emin` that of the subnormal numbers, and a result
of `2^(emax+1)` or more is the infinity. -/
def round_binary (p : Nat) (emin emax : Int) (q : ℚ) : c_float :=
  let a := q.num.toNat
  let b := q.den
  if a = 0 then c_float.finite 0
  else
    let e := max (floor_log2 a b) emin
    let s := e - ((p : Int) - 1)
    if 0 ≤ s then
      let n := round_half_even a (b * 2 ^ s.toNat)
      if 2 ^ (emax + 1).toNat ≤ n * 2 ^ s.toNat then c_float.infinite
      else c_float.finite ((n * 2 ^ s.toNat : Nat) : ℚ)
    else
      let n := round_half_even (a * 2 ^ (-s).toNat) b
      c_float.finite ((n : ℚ) / ((2 ^ (-s).toNat : Nat) : ℚ))

/-- Rounding to `double`, the binary64 format. -/
def round_double (q : ℚ) : c_float := round_binary 53 (-1022) 1023 q

/-- Rounding to `float`, the binary32 format. -/
def round_float (q : ℚ) : c_float := round_binary 24 (-126) 127 q

/-- The C library function `atof` on a text of digits and points: the `double` nearest
to the number read (the conversion of glibc is correctly rounded). -/
def atof (nptr : List Char) : c_float := round_double (decimal_value nptr)

/-- The conversion of a `double` to `float` that the assignment to a `float` field
makes. -/
def double_to_float : c_float → c_float
  | c_float.infinite => c_float.infinite
  | c_float.finite value => round_float value

/-- The function `get_pagewidth_pageheight` on the token `choice->choice`: the pair
(`page_width`, `page_height`) it stores in the two `float` fields. -/
def get_pagewidth_pageheight (page_size : List Char) : c_float × c_float :=
  let p := parse_page_size page_size 0 [] []
  if p.state = 3 then
    (double_to_float (atof p.width), double_to_float (atof p.height))
  else
    (c_float.finite 0, c_float.finite 0)

/-- The optional fraction of a numeral, `[D<d>]` in a token and `[.d]` in a numeral
text: the marker followed by the digits, or nothing. -/
def fraction_part (marker : Char) (d : Option (List Char)) : List Char :=
  match d with
  | some ds => marker :: ds
  | none => []

/-- The token `X<w>[D<d>]MY<h>[D<e>]M`. -/
def size_token (w : List Char) (d : Option (List Char)) (h : List Char)
    (e : Option (List Char)) : List Char :=
  ['X'] ++ w ++ fraction_part 'D' d ++ ['M', 'Y'] ++ h ++ fraction_part 'D' e ++ ['M']

/-- The numeral text `w[.d]`. -/
def numeral_text (w : List Char) (d : Option (List Char)) : List Char :=
  w ++ fraction_part '.' d

/-- The decimal value `w[.d]` of the digit strings `w` and `d`: `w` as a whole number
plus, when there is a fraction, `d` divided by ten to the number of digits of `d`. -/
def numeral_value (w : List Char) (d : Option (List Char)) : ℚ :=
  match d with
  | some ds => (digits_value w : ℚ) + (digits_value ds : ℚ) / (10 : ℚ) ^ ds.length
  | none => (digits_value w : ℚ)

/-- Table `print_speedCommand[20]`: 19 initialised entries; the twentieth is the zero
entry `{ 0, NULL }` that C gives an array element without initialiser. -/
def print_speedCommand : List cups_command_s :=
  [⟨5, [0x1b, 0x26, 0x50, 0x08, 0x01]⟩, ⟨5, [0x1b, 0x26, 0x50, 0x08, 0x02]⟩,
   ⟨5, [0x1b, 0x26, 0x50, 0x08, 0x03]⟩, ⟨5, [0x1b, 0x26, 0x50, 0x08, 0x04]⟩,
   ⟨5, [0x1b, 0x26, 0x50, 0x08, 0x05]⟩, ⟨5, [0x1b, 0x26, 0x50, 0x08, 0x06]⟩,
   ⟨5, [0x1b, 0x26, 0x50, 0x08, 0x07]⟩, ⟨5, [0x1b, 0x26, 0x50, 0x08, 0x08]⟩,
   ⟨5, [0x1b, 0x26, 0x50, 0x08, 0x09]⟩, ⟨5, [0x1b, 0x26, 0x50, 0x08, 0x0a]⟩,
   ⟨5, [0x1b, 0x26, 0x50, 0x08, 0x0b]⟩, ⟨5, [0x1b, 0x26, 0x50, 0x08, 0x0c]⟩,
   ⟨5, [0x1b, 0x26, 0x50, 0x08, 0x0d]⟩, ⟨5, [0x1b, 0x26, 0x50, 0x08, 0x0e]⟩,
   ⟨5, [0x1b, 0x26, 0x50, 0x08, 0x0f]⟩, ⟨5, [0x1b, 0x26, 0x50, 0x08, 0x10]⟩,
   ⟨5, [0x1b, 0x26, 0x50, 0x08, 0x11]⟩, ⟨5, [0x1b, 0x26, 0x50, 0x08, 0x12]⟩,
   ⟨5, [0x1b, 0x26, 0x50, 0x08, 0x13]⟩, ⟨0, []⟩]

/-- Table `kr_print_speedCommand[16]`. -/
def kr_print_speedCommand : List cups_command_s :=
  [⟨5, [0x1b, 0x26, 0x70, 0x08, 0x48]⟩, ⟨5, [0x1b, 0x26, 0x70, 0x08, 0x50]⟩,
   ⟨5, [0x1b, 0x26, 0x70, 0x08, 0x55]⟩, ⟨5, [0x1b, 0x26, 0x70, 0x08, 0x5a]⟩,
   ⟨5, [0x1b, 0x26, 0x70, 0x08, 0x5f]⟩, ⟨5, [0x1b, 0x26, 0x70, 0x08, 0x64]⟩,
   ⟨5, [0x1b, 0x26, 0x70, 0x08, 0x69]⟩, ⟨5, [0x1b, 0x26, 0x70, 0x08, 0x6e]⟩,
   ⟨5, [0x1b, 0x26, 0x70, 0x08, 0x73]⟩, ⟨5, [0x1b, 0x26, 0x70, 0x08, 0x78]⟩,
   ⟨5, [0x1b, 0x26, 0x70, 0x08, 0x7d]⟩, ⟨5, [0x1b, 0x26, 0x70, 0x08, 0x82]⟩,
   ⟨5, [0x1b, 0x26, 0x70, 0x08, 0x87]⟩, ⟨5, [0x1b, 0x26, 0x70, 0x08, 0x8c]⟩,
   ⟨5, [0x1b, 0x26, 0x70, 0x08, 0x91]⟩, ⟨5, [0x1b, 0x26, 0x70, 0x08, 0x98]⟩]

/-- Table `burn_timeCommand[17]`. -/
def burn_timeCommand : List cups_command_s :=
  [⟨5, [0x1b, 0x26, 0x50, 0x07, 0x00]⟩, ⟨5, [0x1b, 0x26, 0x50, 0x07, 0x01]⟩,
   ⟨5, [0x1b, 0x26, 0x50, 0x07, 0x02]⟩, ⟨5, [0x1b, 0x26, 0x50, 0x07, 0x03]⟩,
   ⟨5, [0x1b, 0x26, 0x50, 0x07, 0x04]⟩, ⟨5, [0x1b, 0x26, 0x50, 0x07, 0x05]⟩,
   ⟨5, [0x1b, 0x26, 0x50, 0x07, 0x06]⟩, ⟨5, [0x1b, 0x26, 0x50, 0x07, 0x07]⟩,
   ⟨5, [0x1b, 0x26, 0x50, 0x07, 0x08]⟩, ⟨5, [0x1b, 0x26, 0x50, 0x07, 0x09]⟩,
   ⟨5, [0x1b, 0x26, 0x50, 0x07, 0x0a]⟩, ⟨5, [0x1b, 0x26, 0x50, 0x07, 0x0b]⟩,
   ⟨5, [0x1b, 0x26, 0x50, 0x07, 0x0c]⟩, ⟨5, [0x1b, 0x26, 0x50, 0x07, 0x0d]⟩,
   ⟨5, [0x1b, 0x26, 0x50, 0x07, 0x0e]⟩, ⟨5, [0x1b, 0x26, 0x50, 0x07, 0x0f]⟩,
   ⟨5, [0x1b, 0x26, 0x50, 0x07, 0x10]⟩]

/-- Table `kr_speedCommand[16]` of `double`; every entry is a whole number. -/
def kr_speedCommand : List Nat :=
  [75, 80, 85, 90, 95, 100, 105, 110, 115, 120, 125, 130, 135, 140, 145, 152]

/-- Table `page_modeCommand[3]`. -/
def page_modeCommand : List cups_command_s :=
  [⟨5, [0x1b, 0x26, 0x50, 0x24, 0x01]⟩, ⟨5, [0x1b, 0x26, 0x50, 0x24, 0x00]⟩,
   ⟨5, [0x1b, 0x26, 0x50, 0x24, 0x02]⟩]

/-- Table `kr_page_modeCommand[3]`. -/
def kr_page_modeCommand : List cups_command_s :=
  [⟨5, [0x1b, 0x26, 0x70, 0x23, 0x00]⟩, ⟨5, [0x1b, 0x26, 0x70, 0x23, 0x00]⟩,
   ⟨5, [0x1b, 0x26, 0x70, 0x23, 0x01]⟩]

/-- Table `wasteBasketCommand[12]`. -/
def wasteBasketCommand : List cups_command_s :=
  [⟨5, [0x1b, 0x26, 0x50, 0x2d, 0x00]⟩, ⟨5, [0x1b, 0x26, 0x50, 0x2d, 0x01]⟩,
   ⟨5, [0x1b, 0x26, 0x50, 0x2d, 0x02]⟩, ⟨5, [0x1b, 0x26, 0x50, 0x2d, 0x03]⟩,
   ⟨5, [0x1b, 0x26, 0x50, 0x2d, 0x06]⟩, ⟨5, [0x1b, 0x26, 0x50, 0x2d, 0x0c]⟩,
   ⟨5, [0x1b, 0x26, 0x50, 0x2d, 0x64]⟩, ⟨5, [0x1b, 0x26, 0x50, 0x2d, 0x65]⟩,
   ⟨5, [0x1b, 0x26, 0x50, 0x2d, 0x66]⟩, ⟨5, [0x1b, 0x26, 0x50, 0x2d, 0x67]⟩,
   ⟨5, [0x1b, 0x26, 0x50, 0x2d, 0x6a]⟩, ⟨5, [0x1b, 0x26, 0x50, 0x2d, 0x70]⟩]

/-- Table `ejectTimeoutCommand[31]`. -/
def ejectTimeoutCommand : List cups_command_s :=
  [⟨6, [0x1b, 0x26, 0x70, 0x2d, 0x00, 0]⟩, ⟨6, [0x1b, 0x26, 0x70, 0x2d, 0, 10]⟩,
   ⟨6, [0x1b, 0x26, 0x70, 0x2d, 0, 20]⟩, ⟨6, [0x1b, 0x26, 0x70, 0x2d, 0, 30]⟩,
   ⟨6, [0x1b, 0x26, 0x70, 0x2d, 0, 40]⟩, ⟨6, [0x1b, 0x26, 0x70, 0x2d, 0, 50]⟩,
   ⟨6, [0x1b, 0x26, 0x70, 0x2d, 0, 60]⟩, ⟨6, [0x1b, 0x26, 0x70, 0x2d, 0, 70]⟩,
   ⟨6, [0x1b, 0x26, 0x70, 0x2d, 0, 80]⟩, ⟨6, [0x1b, 0x26, 0x70, 0x2d, 0, 90]⟩,
   ⟨6, [0x1b, 0x26, 0x70, 0x2d, 0, 100]⟩, ⟨6, [0x1b, 0x26, 0x70, 0x2d, 0, 110]⟩,
   ⟨6, [0x1b, 0x26, 0x70, 0x2d, 0, 120]⟩, ⟨6, [0x1b, 0x26, 0x70, 0x2d, 0, 130]⟩,
   ⟨6, [0x1b, 0x26, 0x70, 0x2d, 0, 140]⟩, ⟨6, [0x1b, 0x26, 0x70, 0x2d, 0, 150]⟩,
   ⟨6, [0x1b, 0x26, 0x70, 0x2d, 0, 160]⟩, ⟨6, [0x1b, 0x26, 0x70, 0x2d, 0, 170]⟩,
   ⟨6, [0x1b, 0x26, 0x70, 0x2d, 0, 180]⟩, ⟨6, [0x1b, 0x26, 0x70, 0x2d, 0, 190]⟩,
   ⟨6, [0x1b, 0x26, 0x70, 0x2d, 0, 200]⟩, ⟨6, [0x1b, 0x26, 0x70, 0x2d, 0, 210]⟩,
   ⟨6, [0x1b, 0x26, 0x70, 0x2d, 0, 220]⟩, ⟨6, [0x1b, 0x26, 0x70, 0x2d, 0, 230]⟩,
   ⟨6, [0x1b, 0x26, 0x70, 0x2d, 0, 240]⟩, ⟨6, [0x1b, 0x26, 0x70, 0x2d, 0, 250]⟩,
   ⟨6, [0x1b, 0x26, 0x70, 0x2d, 1, 5]⟩, ⟨6, [0x1b, 0x26, 0x70, 0x2d, 1, 15]⟩,
   ⟨6, [0x1b, 0x26, 0x70, 0x2d, 1, 25]⟩, ⟨6, [0x1b, 0x26, 0x70, 0x2d, 1, 35]⟩,
   ⟨6, [0x1b, 0x26, 0x70, 0x2d, 1, 45]⟩]

/-- Table `loopLength[13]`. -/
def loopLength : List cups_command_s :=
  [⟨6, [0x1b, 0x26, 0x70, 0x09, 0, 0x00]⟩, ⟨6, [0x1b, 0x26, 0x70, 0x09, 0, 0x50]⟩,
   ⟨6, [0x1b, 0x26, 0x70, 0x09, 0, 0x64]⟩, ⟨6, [0x1b, 0x26, 0x70, 0x09, 0, 0x96]⟩,
   ⟨6, [0x1b, 0x26, 0x70, 0x09, 0, 0xc8]⟩, ⟨6, [0x1b, 0x26, 0x70, 0x09, 0, 0xfa]⟩,
   ⟨6, [0x1b, 0x26, 0x70, 0x09, 1, 0x2c]⟩, ⟨6, [0x1b, 0x26, 0x70, 0x09, 1, 0x5e]⟩,
   ⟨6, [0x1b, 0x26, 0x70, 0x09, 1, 0x90]⟩, ⟨6, [0x1b, 0x26, 0x70, 0x09, 1, 0xc2]⟩,
   ⟨6, [0x1b, 0x26, 0x70, 0x09, 1, 0xf4]⟩, ⟨6, [0x1b, 0x26, 0x70, 0x09, 2, 0x26]⟩,
   ⟨6, [0x1b, 0x26, 0x70, 0x09, 2, 0x58]⟩]

/-- The array access `table[i]` with an `int` index: an index outside the array is
undefined, `none`. -/
def table_entry {α : Type} (table : List α) (i : Int) : Option α :=
  if 0 ≤ i then table.get? i.toNat else none

/-! ## Job setup -/

/-- The function `GetSecondaryPulseTime`. -/
def GetSecondaryPulseTime (speed : Nat) : Nat :=
  if speed ≤ 86 then 150
  else if speed > 86 ∧ speed ≤ 114 then 130
  else if speed > 114 then 120
  else 120

/-- The function `SetBurntime`.  The union `B2L` overlays `char bVal[2]` on the
`unsigned int`: on a little-endian host `bVal[0]` is the low byte and `bVal[1]` the
next one. -/
def SetBurntime (primaryPulse secondaryPulse : Nat) : List Nat :=
  [0x1b, 0x26, 0x70, 0x06, secondaryPulse / 256 % 256, secondaryPulse % 256]
  ++ [0x1b, 0x26, 0x70, 0x07, primaryPulse / 256 % 256, primaryPulse % 256]

/-- The value an `int` holds after a computation whose exact result is `x`: `x` reduced
modulo 2^32 = 4294967296 into the range from -2^31 = -2147483648 to 2^31 - 1, which
is what the compiled product of two `int`s leaves. -/
def int32 (x : Int) : Int := (x + 2147483648) % 4294967296 - 2147483648

/-- The function `set_bm_params`; the three products are `int` products, and `/` and
`%` of C truncate towards zero. -/
def set_bm_params (settings : cups_settings_s) : List Nat :=
  let black_mark_min := int32 (settings.black_mark_min * 8)
  let black_mark_max := int32 (settings.black_mark_max * 8)
  let black_mark_cut_pos := int32 (settings.black_mark_cut_pos * 8)
  let q1CutPos := Int.tdiv black_mark_cut_pos 256
  let q2CutPos := Int.tmod black_mark_cut_pos 256
  [0x1b, 0x26, 0x50, 0x28, to_byte black_mark_min]
  ++ [0x1b, 0x26, 0x50, 0x27, to_byte black_mark_max]
  ++ [0x1b, 0x26, 0x50, 0x29, to_byte q1CutPos]
  ++ [0x1b, 0x26, 0x50, 0x2a, to_byte q2CutPos]

/-- The function `set_sys_params`. -/
def set_sys_params (settings : cups_settings_s) : List Nat :=
  if settings.model_number = 2000 then
    let param57 := 248 + (settings.pull_detect + settings.vert_mode + settings.clr_pres)
    [0x1b, 0x26, 0x50, 0x39, to_byte param57]
  else []

/-- The function `set_partial_cut`. -/
def set_partial_cut (settings : cups_settings_s) : List Nat :=
  if settings.model_number = 2000 ∨ settings.model_number = 2100 then
    [0x1b, 0x26, 0x50, 0x3c, to_byte settings.partial_cut]
  else []

/-- The function `set_loop_length`. -/
def set_loop_length (settings : cups_settings_s) : Option (List Nat) :=
  if settings.model_number = 203 then
    (table_entry loopLength settings.loop_length).map output_command
  else
    some [0x1b, 0x26, 0x50, 0x09, to_byte settings.loop_length]

/-- The first `if`/`else` of `job_setup`: the job-wide parameter commands.
`GetPrimaryPulseTime speed darkness` stands for the C function of that name, which
computes in `double`; it is called with an entry of `kr_speedCommand` and with
`burn_time - 1`. -/
def job_parameters (GetPrimaryPulseTime : Nat → Int → Nat) (settings : cups_settings_s) :
    Option (List Nat) :=
  if settings.model_number = 203 then
    match table_entry kr_speedCommand (settings.print_speed - 1),
          table_entry kr_print_speedCommand (settings.print_speed - 1),
          table_entry kr_page_modeCommand settings.page_mode,
          table_entry ejectTimeoutCommand settings.retract_behavior with
    | some speed, some speed_cmd, some mode_cmd, some eject_cmd =>
      some (SetBurntime (GetPrimaryPulseTime speed (settings.burn_time - 1))
              (GetSecondaryPulseTime speed)
            ++ output_command speed_cmd ++ output_command mode_cmd
            ++ output_command eject_cmd)
    | _, _, _, _ => none
  else
    match table_entry print_speedCommand (settings.print_speed - 1),
          table_entry burn_timeCommand (settings.burn_time - 1),
          table_entry wasteBasketCommand settings.retract_behavior,
          table_entry page_modeCommand settings.page_mode with
    | some speed_cmd, some burn_cmd, some waste_cmd, some mode_cmd =>
      some (output_command speed_cmd ++ output_command burn_cmd
            ++ output_command waste_cmd ++ output_command mode_cmd
            ++ set_bm_params settings)
    | _, _, _, _ => none

/-- The function `job_setup`: the bytes written and the settings record it leaves
(the registration of the signal handler writes nothing). -/
def job_setup (GetPrimaryPulseTime : Nat → Int → Nat) (settings : cups_settings_s) :
    Option (List Nat × cups_settings_s) :=
  match job_parameters GetPrimaryPulseTime settings, set_loop_length settings with
  | some params, some loop =>
    if settings.model_number = 2000 ∨ settings.model_number = 2100 then
      some (params ++ loop ++ set_sys_params settings ++ set_partial_cut settings, settings)
    else
      if settings.model_number ≠ 203 then
        some (params ++ loop, { settings with partial_cut := 0 })
      else
        some (params ++ loop, settings)
  | _, _ => none

/-! ## Option lookup -/

/-- The record `ppd_choice_t`, of which the filter reads the text `choice`. -/
structure ppd_choice_t where
  choice : List Char

/-- The record `ppd_option_t`: the text `defchoice`, and the CUPS function
`ppdFindChoice(option, name)` as a field. -/
structure ppd_option_t where
  defchoice : List Char
  ppdFindChoice : List Char → Option ppd_choice_t

/-- The record `ppd_file_t`: `model_number`, and the CUPS functions
`ppdFindMarkedChoice(ppd, name)` and `ppdFindOption(ppd, name)` as fields; `none` is
the `NULL` result. -/
structure ppd_file_t where
  model_number : Int
  ppdFindMarkedChoice : String → Option ppd_choice_t
  ppdFindOption : String → Option ppd_option_t

/-- The function `get_option_choice_index`; `atoi` is the C library function. -/
def get_option_choice_index (atoi : List Char → Int) (choiceName : String)
    (ppd : ppd_file_t) : Int :=
  match ppd.ppdFindMarkedChoice choiceName with
  | some choice => atoi choice.choice
  | none =>
    match ppd.ppdFindOption choiceName with
    | none => -1
    | some option =>
      match option.ppdFindChoice option.defchoice with
      | none => -1
      | some choice => atoi choice.choice

/-- A reading of `atoi` on a text without leading blanks: an optional sign and the
leading decimal digits. -/
def atoi_value (s : List Char) : Int :=
  match s with
  | '-' :: t => -(digits_value (t.takeWhile is_digit) : Int)
  | '+' :: t => (digits_value (t.takeWhile is_digit) : Int)
  | t => (digits_value (t.takeWhile is_digit) : Int)

/-- A PPD file without any option: every lookup returns `NULL`. -/
def empty_ppd (model_number : Int) : ppd_file_t :=
  ⟨model_number, fun _ => none, fun _ => none⟩

/-- The settings record that `initialize_settings` builds from a PPD file. -/
def settings_of_ppd (atoi : List Char → Int) (ppd : ppd_file_t) : cups_settings_s :=
  initialize_settings ppd.model_number (fun name => get_option_choice_index atoi name ppd)

/-- A page whose lines are all `00` except the line at index 3, which is `0F`
(height 8, one byte per line). -/
def scenario_A_page : raster_page :=
  ⟨⟨8, 1⟩, [[0], [0], [0], [0x0f], [0], [0], [0], [0]]⟩

/-- The settings record with which the line loop of a page runs: `last_page` cleared
and `bytes_per_scanline` updated for the page's header. -/
def page_settings (settings : cups_settings_s) (header : cups_page_header2_t) :
    cups_settings_s :=
  negotiate_bytes_per_scanline { settings with last_page := 0 } header

/-! ## The job as a whole -/

/-- The function `main` from `job_setup` on, for the settings record that
`initialize_settings` has filled and the pages of the raster stream: the bytes
written to the printer. -/
def main (GetPrimaryPulseTime : Nat → Int → Nat) (settings : cups_settings_s)
    (pages : List raster_page) : Option (List Nat) :=
  match job_setup GetPrimaryPulseTime settings with
  | none => none
  | some (setup, settings1) =>
    match page_loop settings1 none pages with
    | none => none
    | some (out, settings2) => some (setup ++ out ++ end_job settings2)

/-! ## Segments of a page-size token -/

/-- The number of positions of a byte stream at which the bytes of `cmd` occur. -/
def command_count (cmd : List Nat) : List Nat → Nat
  | [] => 0
  | b :: t => (if cmd.isPrefixOf (b :: t) then 1 else 0) + command_count cmd t

/-! ## Lifecycle commands: cancellation, end of job, end of page, eject, page height -/

theorem putchar_zero_loop_eq (n : Nat) : putchar_zero_loop n = List.replicate n 0 := by
  induction n with
  | zero => rfl
  | succ n ih => simp [putchar_zero_loop, ih, List.replicate_succ]

/-- C6: the bytes written by `cancel_job` are exactly 310 zero bytes, then the bytes of
`end_page`, then the bytes of `end_job` for the same settings record, and nothing
after them. -/
theorem cancel_job_output (settings : cups_settings_s) :
    cancel_job settings = List.replicate 310 0 ++ (end_page settings ++ end_job settings) := by
  unfold cancel_job
  rw [putchar_zero_loop_eq, List.append_assoc]

/-- C7: `end_job` writes the end-of-page command `1B 1E` exactly when
`page_cut_type = 0` or `partial_cut != 0`, then the single byte `05` when
`clear_presenter = 1` and otherwise the output of `do_eject`; nothing else. -/
theorem end_job_output (settings : cups_settings_s) :
    end_job settings =
      (if settings.page_cut_type = 0 ∨ settings.partial_cut ≠ 0 then [0x1b, 0x1e] else [])
      ++ (if settings.clear_presenter = 1 then [0x05] else do_eject settings) := by
  unfold end_job
  have h1 : output_command endPageCommand = [0x1b, 0x1e] := by decide
  have h2 : output_command clear_presenterCommand = [0x05] := by decide
  rw [h1, h2]

/-- C8: after the advance command, `end_page` writes `1B 1E` when `page_cut_type = 1`
and `partial_cut = 0`; when `page_cut_type = 1` and `partial_cut != 0` it writes
`1F` and the byte `partial_cut mod 256` on model 203 and the bare byte `1F` on every
other model; when `page_cut_type != 1` it writes no further byte. -/
theorem end_page_cut_policy (settings : cups_settings_s) :
    end_page settings =
      do_advance settings ++
        (if settings.page_cut_type = 1 then
          (if settings.partial_cut = 0 then [0x1b, 0x1e]
           else if settings.model_number = 203 then
             [0x1f, (settings.partial_cut % 256).toNat]
           else [0x1f])
         else []) := by
  unfold end_page
  have h1 : output_command endPageCommand = [0x1b, 0x1e] := by decide
  rw [h1]
  rfl

/-- C9: `do_eject` writes the fixed bytes `1B 0C 1E` when `eject < 0` and the model is
not 2100, whatever the eject value; when `eject >= 0` or the model is 2100 it writes
`1B 0C` and the byte `eject mod 256`. -/
theorem do_eject_output (settings : cups_settings_s) :
    (settings.eject < 0 ∧ settings.model_number ≠ 2100 →
      do_eject settings = [0x1b, 0x0c, 0x1e]) ∧
    (0 ≤ settings.eject ∨ settings.model_number = 2100 →
      do_eject settings = [0x1b, 0x0c, (settings.eject % 256).toNat]) := by
  constructor
  · intro h
    simp only [do_eject, if_pos h]
  · intro h
    have hn : ¬ (settings.eject < 0 ∧ settings.model_number ≠ 2100) := by
      rintro ⟨h1, h2⟩
      rcases h with h | h
      · omega
      · exact h2 h
    simp only [do_eject, if_neg hn, to_byte]

/-- C10: with `page_mode` 1 or 2 the output of `page_setup` starts with
`1B 26 70 25 hi lo` on model 203, where `256*hi + lo = height/8` for every height
below 524288, and with `1B 26 50 25 hi 1B 26 50 26 lo` on every other model, where
`256*hi + lo = height` for every height below 65536; with any other `page_mode` it
starts with the fixed bytes `1B 26 70 25 00 5C` on model 203 and
`1B 26 50 25 00 1B 26 50 26 01` on every other model, whatever the height. -/
theorem page_setup_height_command (settings : cups_settings_s)
    (header : cups_page_header2_t) :
    ∃ hi lo rest, hi < 256 ∧ lo < 256 ∧
      page_setup settings header =
        (if settings.page_mode = 1 ∨ settings.page_mode = 2 then
          (if settings.model_number = 203 then [0x1b, 0x26, 0x70, 0x25, hi, lo]
           else [0x1b, 0x26, 0x50, 0x25, hi, 0x1b, 0x26, 0x50, 0x26, lo])
         else
          (if settings.model_number = 203 then [0x1b, 0x26, 0x70, 0x25, 0x00, 0x5c]
           else [0x1b, 0x26, 0x50, 0x25, 0x00, 0x1b, 0x26, 0x50, 0x26, 0x01]))
        ++ rest ∧
      (settings.model_number = 203 → header.cupsHeight < 524288 →
        256 * hi + lo = header.cupsHeight / 8) ∧
      (settings.model_number ≠ 203 → header.cupsHeight < 65536 →
        256 * hi + lo = header.cupsHeight) := by
  by_cases hm : settings.model_number = 203
  · refine ⟨header.cupsHeight / 8 / 256 % 256, header.cupsHeight / 8 % 256,
      do_reverse settings, Nat.mod_lt _ (by norm_num), Nat.mod_lt _ (by norm_num), ?_, ?_, ?_⟩
    · unfold page_setup
      simp only [if_pos hm]
      split <;> simp [Nat.mod_mod]
    · intro _ hh
      omega
    · intro h
      exact absurd hm h
  · refine ⟨header.cupsHeight / 256 % 256, header.cupsHeight % 256,
      do_reverse settings, Nat.mod_lt _ (by norm_num), Nat.mod_lt _ (by norm_num), ?_, ?_, ?_⟩
    · unfold page_setup
      simp only [if_neg hm]
      split <;> simp [Nat.mod_mod]
    · intro h
      exact absurd h hm
    · intro _ hh
      omega

/-! ## The scan-line encoder -/

theorem scan_last_black_blank (raster_data : List Nat) (w : Nat)
    (h : ∀ j, j < w → raster_data.getD j 0 = 0) : scan_last_black raster_data w = -1 := by
  induction w with
  | zero => rfl
  | succ k ih =>
    have hk : raster_data.getD k 0 = 0 := h k (Nat.lt_succ_self k)
    simp only [scan_last_black, hk, ne_eq, not_true_eq_false, if_false]
    exact ih (fun j hj => h j (Nat.lt_succ_of_lt hj))

theorem scan_last_black_found (raster_data : List Nat) (w i : Nat) (hi : i < w)
    (hne : raster_data.getD i 0 ≠ 0)
    (hz : ∀ j, i < j → j < w → raster_data.getD j 0 = 0) :
    scan_last_black raster_data w = (i : Int) := by
  induction w with
  | zero => omega
  | succ k ih =>
    by_cases hik : i = k
    · subst hik
      simp only [scan_last_black, if_pos hne]
    · have hlt : i < k := by omega
      have hk : raster_data.getD k 0 = 0 := hz k hlt (Nat.lt_succ_self k)
      simp only [scan_last_black, hk, ne_eq, not_true_eq_false, if_false]
      exact ih hlt (fun j h1 h2 => hz j h1 (Nat.lt_succ_of_lt h2))

theorem map_mod_256_of_bytes (l : List Nat) (h : ∀ b ∈ l, b < 256) :
    l.map (fun b => b % 256) = l := by
  induction l with
  | nil => rfl
  | cons a t ih =>
    have ha : a % 256 = a := Nat.mod_eq_of_lt (h a (List.mem_cons_self a t))
    simp only [List.map_cons, ha]
    rw [ih (fun b hb => h b (List.mem_cons_of_mem a hb))]

theorem length_byte_eq (i : Nat) :
    to_byte (if ((i : Int) + 1) > 254 then 255 else ((i : Int) + 1)) = min (i + 1) 255 := by
  unfold to_byte
  split <;> omega

/-- C1: one turn of the line loop, for a scan line of bytes and a negotiated width `w`
not larger than the line.  If the first `w` bytes are all zero, nothing is written
and the blank-line counter grows by exactly one.  Otherwise, with `i` the highest
index below `w` holding a nonzero byte, the turn writes the pending blank-run flush,
then `1B 73`, then the length byte `min (i+1) 255`, then exactly the bytes
`line[0..i]` in order, and nothing else.  (The bound `1 <= w` of the claim is not
needed.) -/
theorem encode_line_spec (line : List Nat) (w n : Nat) (hw : w ≤ line.length)
    (hb : ∀ b ∈ line, b < 256) :
    ((∀ j, j < w → line.getD j 0 = 0) → encode_line line (w : Int) n = some ([], n + 1)) ∧
    (∀ i, i < w → line.getD i 0 ≠ 0 → (∀ j, i < j → j < w → line.getD j 0 = 0) →
      encode_line line (w : Int) n =
        some (flush_blank_lines n ++ [0x1b, 0x73, min (i + 1) 255] ++ line.take (i + 1), 0)) := by
  constructor
  · intro hz
    have hs := scan_last_black_blank line w hz
    simp only [encode_line, Int.toNat_ofNat, if_pos hw, hs, if_true]
  · intro i hi hne hz
    have hs := scan_last_black_found line w i hi hne hz
    have hneg : ¬ ((i : Int) = -1) := by omega
    have htake : (line.take (i + 1)).map (fun b => b % 256) = line.take (i + 1) :=
      map_mod_256_of_bytes _ (fun b hb' => hb b (List.mem_of_mem_take hb'))
    have hnat : ((i : Int) + 1).toNat = i + 1 := by omega
    simp only [encode_line, Int.toNat_ofNat, if_pos hw, hs, if_neg hneg, length_byte_eq,
      hnat, htake, List.append_assoc, List.cons_append, List.nil_append]

/-- Witness for `encode_line_spec`: the line `00 0F 00 00` at width 3 with three blank
lines pending. -/
theorem encode_line_spec_witness :
    encode_line [0, 0x0f, 0, 0] 3 3 = some ([0x1b, 0x4a, 3, 0x1b, 0x73, 2, 0, 0x0f], 0) :=
  (encode_line_spec [0, 0x0f, 0, 0] 3 3 (by decide) (by decide)).2 1 (by decide) (by decide)
    (by intro j h1 h2; interval_cases j; rfl)

/-- C2, evaluated at a pending run of 256 blank lines: the flush writes the two advance
commands `1B 4A FF` and `1B 4A 00`, whose parameter bytes sum to 255, so no list of
`ceil(256/255) = 2` advance commands with parameters summing to 256 is what it writes.
The line loop reaches that flush on a page of width 1 with 256 blank lines followed
by the line `01`. -/
theorem flush_blank_lines_256 :
    flush_blank_lines 256 = [0x1b, 0x4a, 255, 0x1b, 0x4a, 0] ∧
    (¬ ∃ ps : List Nat,
        flush_blank_lines 256 = ps.foldr (fun p out => 0x1b :: 0x4a :: p :: out) [] ∧
        ps.length = (256 + 254) / 255 ∧ ps.sum = 256) ∧
    line_loop 1 257 (List.replicate 256 [0] ++ [[1]]) [0] 0
      = some ([0x1b, 0x4a, 255, 0x1b, 0x4a, 0, 0x1b, 0x73, 1, 1], [1]) := by
  have hval : flush_blank_lines 256 = [0x1b, 0x4a, 255, 0x1b, 0x4a, 0] := by decide
  refine ⟨hval, ?_, ?_⟩
  · rintro ⟨ps, heq, hlen, hsum⟩
    rw [hval] at heq
    match ps, hlen with
    | [a, b], _ =>
      simp only [List.foldr_cons, List.foldr_nil, List.cons.injEq, and_true, true_and] at heq
      obtain ⟨ha, hb⟩ := heq
      subst ha
      subst hb
      simp at hsum
  · set_option maxRecDepth 100000 in decide

/-- C3, evaluated on model 2000 (standard width 80) for pages of 100, 40 and 60 bytes
per line: the line loops run with the widths 80, 40 and 80, while the lesser of the
standard width and the third page's line width is 60.  With one line per page, the
third page's line `02 00 ... 00` (60 bytes) is sent as 71 bytes that end with the
byte `AA` left in the buffer by the first page. -/
theorem scan_widths_three_pages :
    scan_widths (initialize_settings 2000 (fun _ => 0))
        [⟨5, 100⟩, ⟨5, 40⟩, ⟨5, 60⟩] = [80, 40, 80] ∧
    min (initialize_settings 2000 (fun _ => 0)).bytes_per_scanline_std (60 : Int) = 60 ∧
    (page_loop (initialize_settings 2000 (fun _ => 0)) none
        [⟨⟨1, 100⟩, [List.replicate 70 0 ++ [0xaa] ++ List.replicate 29 0]⟩,
         ⟨⟨1, 40⟩, [[1] ++ List.replicate 39 0]⟩,
         ⟨⟨1, 60⟩, [[2] ++ List.replicate 59 0]⟩]).map Prod.fst
      = some ([0x1b, 0x26, 0x50, 0x25, 0, 0x1b, 0x26, 0x50, 0x26, 1]
          ++ [0x1b, 0x73, 71] ++ List.replicate 70 0 ++ [0xaa] ++ [0x1b, 0x4a, 96]
          ++ [0x1b, 0x26, 0x50, 0x25, 0, 0x1b, 0x26, 0x50, 0x26, 1]
          ++ [0x1b, 0x73, 1, 1] ++ [0x1b, 0x4a, 96]
          ++ [0x1b, 0x26, 0x50, 0x25, 0, 0x1b, 0x26, 0x50, 0x26, 1]
          ++ [0x1b, 0x73, 71, 2] ++ List.replicate 69 0 ++ [0xaa] ++ [0x1b, 0x4a, 96]) := by
  refine ⟨by decide, by decide, ?_⟩
  set_option maxRecDepth 100000 in decide

/-! ## The page-size token -/

theorem parse_width_digits (ds rest width height : List Char)
    (hd : ∀ c ∈ ds, is_digit c = true) :
    parse_page_size (ds ++ rest) 1 width height
      = parse_page_size rest 1 (width ++ ds) height := by
  induction ds generalizing width with
  | nil => simp
  | cons c t ih =>
    have hc : is_digit c = true := hd c (List.mem_cons_self c t)
    have hstep : parse_page_size (c :: (t ++ rest)) 1 width height
        = parse_page_size (t ++ rest) 1 (width ++ [c]) height := by
      simp [parse_page_size, hc]
    rw [List.cons_append, hstep, ih (width ++ [c]) (fun x hx => hd x (List.mem_cons_of_mem c hx))]
    simp

theorem parse_height_digits (ds rest width height : List Char)
    (hd : ∀ c ∈ ds, is_digit c = true) :
    parse_page_size (ds ++ rest) 2 width height
      = parse_page_size rest 2 width (height ++ ds) := by
  induction ds generalizing height with
  | nil => simp
  | cons c t ih =>
    have hc : is_digit c = true := hd c (List.mem_cons_self c t)
    have hstep : parse_page_size (c :: (t ++ rest)) 2 width height
        = parse_page_size (t ++ rest) 2 width (height ++ [c]) := by
      simp [parse_page_size, hc]
    rw [List.cons_append, hstep, ih (height ++ [c]) (fun x hx => hd x (List.mem_cons_of_mem c hx))]
    simp

/-- The width segment `<w>[D<d>]` read in state 1 leaves the text `w[.d]` in `width`. -/
theorem parse_width_numeral (w : List Char) (d : Option (List Char)) (rest height : List Char)
    (hw : ∀ c ∈ w, is_digit c = true) (hd : ∀ ds, d = some ds → ∀ c ∈ ds, is_digit c = true) :
    parse_page_size (w ++ fraction_part 'D' d ++ rest) 1 [] height
      = parse_page_size rest 1 (numeral_text w d) height := by
  cases d with
  | none =>
    simp only [numeral_text, fraction_part, List.append_nil]
    rw [parse_width_digits w rest [] height hw]
    simp
  | some ds =>
    simp only [numeral_text, fraction_part]
    have h1 : parse_page_size (w ++ ('D' :: ds) ++ rest) 1 [] height
        = parse_page_size ('D' :: (ds ++ rest)) 1 ([] ++ w) height := by
      rw [List.append_assoc, parse_width_digits w _ [] height hw]
      simp
    have h2 : parse_page_size ('D' :: (ds ++ rest)) 1 ([] ++ w) height
        = parse_page_size (ds ++ rest) 1 (w ++ ['.']) height := by
      have hnd : is_digit 'D' = false := by decide
      simp [parse_page_size, hnd]
    rw [h1, h2, parse_width_digits ds rest _ height (hd ds rfl)]
    simp

/-- The height segment `<h>[D<e>]` read in state 2 leaves the text `h[.e]` in `height`. -/
theorem parse_height_numeral (h : List Char) (e : Option (List Char)) (rest width : List Char)
    (hh : ∀ c ∈ h, is_digit c = true) (he : ∀ es, e = some es → ∀ c ∈ es, is_digit c = true) :
    parse_page_size (h ++ fraction_part 'D' e ++ rest) 2 width []
      = parse_page_size rest 2 width (numeral_text h e) := by
  cases e with
  | none =>
    simp only [numeral_text, fraction_part, List.append_nil]
    rw [parse_height_digits h rest width [] hh]
    simp
  | some es =>
    simp only [numeral_text, fraction_part]
    have h1 : parse_page_size (h ++ ('D' :: es) ++ rest) 2 width []
        = parse_page_size ('D' :: (es ++ rest)) 2 width ([] ++ h) := by
      rw [List.append_assoc, parse_height_digits h _ width [] hh]
      simp
    have h2 : parse_page_size ('D' :: (es ++ rest)) 2 width ([] ++ h)
        = parse_page_size (es ++ rest) 2 width (h ++ ['.']) := by
      have hnd : is_digit 'D' = false := by decide
      simp [parse_page_size, hnd]
    rw [h1, h2, parse_height_digits es rest width _ (he es rfl)]
    simp

/-- The parse of a token `X<w>[D<d>]MY<h>[D<e>]M` of digit strings: the complete state,
with the texts `w[.d]` and `h[.e]`. -/
theorem size_token_state (w : List Char) (d : Option (List Char)) (h : List Char)
    (e : Option (List Char))
    (hw : ∀ c ∈ w, is_digit c = true) (hd : ∀ ds, d = some ds → ∀ c ∈ ds, is_digit c = true)
    (hh : ∀ c ∈ h, is_digit c = true) (he : ∀ es, e = some es → ∀ c ∈ es, is_digit c = true) :
    parse_page_size (size_token w d h e) 0 [] [] = ⟨3, numeral_text w d, numeral_text h e⟩ := by
  have h0 : parse_page_size (size_token w d h e) 0 [] []
      = parse_page_size (w ++ fraction_part 'D' d
          ++ ('M' :: 'Y' :: (h ++ fraction_part 'D' e
          ++ ['M']))) 1 [] [] := by
    simp [size_token, parse_page_size]
  rw [h0, parse_width_numeral w d _ [] hw hd]
  have hM : is_digit 'M' = false := by decide
  have hY : is_digit 'Y' = false := by decide
  have h1 : parse_page_size ('M' :: 'Y' :: (h ++ fraction_part 'D' e
          ++ ['M'])) 1 (numeral_text w d) []
      = parse_page_size (h ++ fraction_part 'D' e ++ ['M'])
          2 (numeral_text w d) [] := by
    simp [parse_page_size, hM, hY]
  rw [h1, parse_height_numeral h e _ _ hh he]
  simp [parse_page_size, hM]

/-- The number `atof` reads in the text `w[.d]` of digit strings is the decimal value
`w[.d]`. -/
theorem decimal_value_numeral_text (w : List Char) (d : Option (List Char))
    (hw : ∀ c ∈ w, is_digit c = true) (hd : ∀ ds, d = some ds → ∀ c ∈ ds, is_digit c = true) :
    decimal_value (numeral_text w d) = numeral_value w d := by
  cases d with
  | none =>
    have h1 : List.takeWhile is_digit w = w := List.takeWhile_eq_self_iff.mpr hw
    have h2 : List.dropWhile is_digit w = [] := List.dropWhile_eq_nil_iff.mpr hw
    simp only [decimal_value, numeral_text, fraction_part, List.append_nil, h1, h2,
      numeral_value]
  | some ds =>
    have hds : ∀ c ∈ ds, is_digit c = true := hd ds rfl
    have hpt : is_digit '.' = false := by decide
    have h1 : List.takeWhile is_digit (w ++ '.' :: ds) = w := by
      rw [List.takeWhile_append_of_pos hw]
      simp [List.takeWhile_cons, hpt]
    have h2 : List.dropWhile is_digit (w ++ '.' :: ds) = '.' :: ds := by
      rw [List.dropWhile_append_of_pos hw]
      simp [List.dropWhile_cons, hpt]
    have h3 : List.takeWhile is_digit ds = ds := List.takeWhile_eq_self_iff.mpr hds
    simp only [decimal_value, numeral_text, fraction_part, h1, h2, h3, numeral_value]

/-- A positive number below `2^p` is halved fewer than `p` times. -/
theorem halvings_lt (fuel n p : Nat) (h0 : 0 < n) (hn : n < 2 ^ p) : halvings fuel n < p := by
  induction fuel generalizing n p with
  | zero =>
    cases p with
    | zero => simp at hn; omega
    | succ p => simp [halvings]
  | succ fuel ih =>
    cases p with
    | zero => simp at hn; omega
    | succ p =>
      by_cases h2 : 2 ≤ n
      · have hhalf : n / 2 < 2 ^ p := by
          rw [Nat.pow_succ] at hn
          omega
        have hrec := ih (n / 2) p (by omega) hhalf
        simp only [halvings, if_pos h2]
        omega
      · simp [halvings, h2]

/-- A whole number below `2^p` is a number of the binary format with `p` significant
bits: rounding leaves it as it is. -/
theorem round_binary_whole (p : Nat) (emin emax : Int) (n : Nat)
    (hemin : emin ≤ 0) (hemax : (p : Int) ≤ emax + 1) (hn : n < 2 ^ p) :
    round_binary p emin emax (n : ℚ) = c_float.finite (n : ℚ) := by
  by_cases h0 : n = 0
  · subst h0
    simp [round_binary]
  · have hnum : ((n : ℚ).num).toNat = n := by simp
    have hden : (n : ℚ).den = 1 := by simp
    have hlog : nat_log2 n < p := halvings_lt n n p (Nat.pos_of_ne_zero h0) hn
    have hfl : floor_log2 n 1 = (nat_log2 n : Int) := by
      have h1 : 1 ≤ n := Nat.one_le_iff_ne_zero.mpr h0
      simp [floor_log2, h1]
    have hmax : max (nat_log2 n : Int) emin = (nat_log2 n : Int) := by
      apply max_eq_left
      omega
    simp only [round_binary, hnum, hden, if_neg h0, hfl, hmax]
    by_cases hs : 0 ≤ (nat_log2 n : Int) - ((p : Int) - 1)
    · have hs0 : (nat_log2 n : Int) - ((p : Int) - 1) = 0 := by omega
      have hr : round_half_even n 1 = n := by
        simp [round_half_even, Nat.mod_one]
      have hpe : p ≤ (emax + 1).toNat := by omega
      have hpow : 2 ^ p ≤ 2 ^ (emax + 1).toNat := Nat.pow_le_pow_right (by decide) hpe
      have hlt : ¬ 2 ^ (emax + 1).toNat ≤ n := by omega
      simp [hs0, hr, hlt]
    · have hr : ∀ m : Nat, round_half_even m 1 = m := by
        intro m
        simp [round_half_even, Nat.mod_one]
      rw [if_neg hs]
      simp only [one_mul, hr, mul_one]
      have hk : ((2 ^ (-((nat_log2 n : Int) - ((p : Int) - 1))).toNat : Nat) : ℚ) ≠ 0 := by
        positivity
      rw [Nat.cast_mul, mul_div_assoc, div_self hk, mul_one]

/-- A whole number below `2^24`, rounded to `double` and then to `float`, is not
changed. -/
theorem double_to_float_whole (n : Nat) (hn : n < 2 ^ 24) :
    double_to_float (round_double (n : ℚ)) = c_float.finite (n : ℚ) := by
  have h53 : n < 2 ^ 53 := lt_of_lt_of_le hn (by decide)
  have h1 : round_double (n : ℚ) = c_float.finite (n : ℚ) :=
    round_binary_whole 53 (-1022) 1023 n (by decide) (by decide) h53
  have h2 : round_float (n : ℚ) = c_float.finite (n : ℚ) :=
    round_binary_whole 24 (-126) 127 n (by decide) (by decide) hn
  rw [h1]
  exact h2

/-- C4 as stated fails: the token `X0D1MY1M` has the form of the claim with the width
numeral `0.1`, whose decimal value is 1/10, and `page_width` is the `float`
13421773/134217728 (0.100000001490116...), which is not 1/10. -/
theorem size_token_tenth :
    size_token ['0'] (some ['1']) ['1'] none = ['X', '0', 'D', '1', 'M', 'Y', '1', 'M'] ∧
    numeral_value ['0'] (some ['1']) = 1 / 10 ∧
    get_pagewidth_pageheight ['X', '0', 'D', '1', 'M', 'Y', '1', 'M']
      = (c_float.finite (13421773 / 134217728), c_float.finite 1) ∧
    c_float.finite (13421773 / 134217728) ≠ c_float.finite (1 / 10) := by
  refine ⟨by decide, by decide!, by decide!, by decide!⟩

/-- The second rounding at work on whole numbers: in the token `X16777217MY16777219M`
the width `2^24 + 1` and the height `2^24 + 3` both lie halfway between two `float`
values, and each goes to the one whose last bit is 0. -/
theorem size_token_halfway :
    get_pagewidth_pageheight
        ['X', '1', '6', '7', '7', '7', '2', '1', '7', 'M',
         'Y', '1', '6', '7', '7', '7', '2', '1', '9', 'M']
      = (c_float.finite 16777216, c_float.finite 16777220) := by
  decide!

/-- C4, amended: for a token `X<w>[D<d>]MY<h>[D<e>]M` whose parts are decimal digits and
whose two numerals (with their decimal point) are at most 19 characters long, the
parser ends in the complete state 3 with the width text `w[.d]` and the height text
`h[.e]`; `page_width` is the decimal value `w[.d]` rounded to the nearest `double` (by
`atof`) and from there to the nearest `float` (by the assignment), and `page_height`
likewise the decimal value `h[.e]`; for a numeral without fraction whose value is
below 2^24 the field is that value exactly.  (That the digit strings are non-empty is
not needed.) -/
theorem size_token_parse
    (w : List Char) (d : Option (List Char)) (h : List Char) (e : Option (List Char))
    (hw : ∀ c ∈ w, is_digit c = true) (hd : ∀ ds, d = some ds → ∀ c ∈ ds, is_digit c = true)
    (hh : ∀ c ∈ h, is_digit c = true) (he : ∀ es, e = some es → ∀ c ∈ es, is_digit c = true)
    (_hwlen : (numeral_text w d).length ≤ 19) (_hhlen : (numeral_text h e).length ≤ 19) :
    parse_page_size (size_token w d h e) 0 [] []
      = ⟨3, numeral_text w d, numeral_text h e⟩ ∧
    get_pagewidth_pageheight (size_token w d h e)
      = (double_to_float (round_double (numeral_value w d)),
         double_to_float (round_double (numeral_value h e))) ∧
    (d = none → digits_value w < 2 ^ 24 →
      (get_pagewidth_pageheight (size_token w d h e)).1
        = c_float.finite (digits_value w : ℚ)) ∧
    (e = none → digits_value h < 2 ^ 24 →
      (get_pagewidth_pageheight (size_token w d h e)).2
        = c_float.finite (digits_value h : ℚ)) := by
  have hparse := size_token_state w d h e hw hd hh he
  have hval : get_pagewidth_pageheight (size_token w d h e)
      = (double_to_float (round_double (numeral_value w d)),
         double_to_float (round_double (numeral_value h e))) := by
    simp only [get_pagewidth_pageheight, hparse, if_true, atof,
      decimal_value_numeral_text w d hw hd, decimal_value_numeral_text h e hh he]
  refine ⟨hparse, hval, ?_, ?_⟩
  · intro hnone hlt
    subst hnone
    rw [hval]
    exact double_to_float_whole (digits_value w) hlt
  · intro hnone hlt
    subst hnone
    rw [hval]
    exact double_to_float_whole (digits_value h) hlt

/-- Witness for `size_token_parse`: the token `X80D5MY120M` gives the width 80.5 and
the height 120. -/
theorem size_token_parse_witness :
    get_pagewidth_pageheight ['X', '8', '0', 'D', '5', 'M', 'Y', '1', '2', '0', 'M']
      = (c_float.finite (161 / 2), c_float.finite 120) :=
  (size_token_parse ['8', '0'] (some ['5']) ['1', '2', '0'] none
    (by decide) (by intro ds hds; cases hds; decide) (by decide) (by intro es hes; cases hes)
    (by decide) (by decide)).2.1.trans (by decide!)

theorem esc_J_255_eq (n : Nat) :
    esc_J_255 n = (List.replicate n [0x1b, 0x4a, 0xff]).flatten := by
  induction n with
  | zero => rfl
  | succ n ih => simp [esc_J_255, ih, List.replicate_succ]

/-- C11: the advance amount `a` is 96 on models 2000, 2100 and 203, 136 on model 7030
and 152 on every other model (8200 included); `do_advance` writes it as `a/256`
commands `1B 4A FF` followed by one command `1B 4A (a mod 256)`, and since `a < 256`
the output is exactly the three bytes `1B 4A a`. -/
theorem do_advance_output (settings : cups_settings_s) :
    advance_amount settings.model_number =
      (if settings.model_number = 2000 ∨ settings.model_number = 2100
          ∨ settings.model_number = 203 then 12 * 8
       else if settings.model_number = 7030 then 17 * 8
       else 19 * 8) ∧
    do_advance settings =
      (List.replicate (advance_amount settings.model_number / 256) [0x1b, 0x4a, 0xff]).flatten
        ++ [0x1b, 0x4a, advance_amount settings.model_number % 256] ∧
    advance_amount settings.model_number < 256 ∧
    do_advance settings = [0x1b, 0x4a, advance_amount settings.model_number] := by
  have hval : advance_amount settings.model_number =
      (if settings.model_number = 2000 ∨ settings.model_number = 2100
          ∨ settings.model_number = 203 then 12 * 8
       else if settings.model_number = 7030 then 17 * 8
       else 19 * 8) := by
    unfold advance_amount
    by_cases h1 : settings.model_number = 8200
    · have h2 : ¬ (settings.model_number = 2000 ∨ settings.model_number = 2100
          ∨ settings.model_number = 203) := by omega
      have h3 : ¬ settings.model_number = 7030 := by omega
      simp only [if_pos h1, if_neg h2, if_neg h3]
    · simp only [if_neg h1]
  have hlt : advance_amount settings.model_number < 256 := by
    rw [hval]
    split
    · norm_num
    · split <;> norm_num
  refine ⟨hval, ?_, hlt, ?_⟩
  · simp only [do_advance, esc_J_255_eq]
  · have hdiv : advance_amount settings.model_number / 256 = 0 := Nat.div_eq_of_lt hlt
    have hmod : advance_amount settings.model_number % 256
        = advance_amount settings.model_number := Nat.mod_eq_of_lt hlt
    simp only [do_advance, hdiv, hmod, esc_J_255, List.nil_append]

/-- C12: `GetSecondaryPulseTime` returns 150 for a speed up to 86, 130 for a speed above
86 and up to 114, and 120 for a speed above 114; hence it never grows with the
speed. -/
theorem GetSecondaryPulseTime_spec :
    (∀ speed : Nat, GetSecondaryPulseTime speed =
      if speed ≤ 86 then 150 else if speed ≤ 114 then 130 else 120) ∧
    (∀ s1 s2 : Nat, s1 ≤ s2 → GetSecondaryPulseTime s2 ≤ GetSecondaryPulseTime s1) := by
  have hval : ∀ speed : Nat, GetSecondaryPulseTime speed =
      if speed ≤ 86 then 150 else if speed ≤ 114 then 130 else 120 := by
    intro speed
    unfold GetSecondaryPulseTime
    by_cases h1 : speed ≤ 86
    · simp only [if_pos h1]
    · by_cases h2 : speed ≤ 114
      · have h3 : speed > 86 ∧ speed ≤ 114 := ⟨by omega, h2⟩
        simp only [if_neg h1, if_pos h2, if_pos h3]
      · have h3 : ¬ (speed > 86 ∧ speed ≤ 114) := fun h => h2 h.2
        simp only [if_neg h1, if_neg h2, if_neg h3, ite_self]
  refine ⟨hval, ?_⟩
  intro s1 s2 hle
  rw [hval s1, hval s2]
  split_ifs <;> omega

/-- C19, evaluated at `reverse = 32`: the reverse amount is not zero, so the command is
sent, and its parameter byte is `256 mod 256 = 0`: the filter writes `1B 6A 00`. -/
theorem do_reverse_32 :
    do_reverse { zero_settings with reverse := 32 } = [0x1b, 0x6a, 0] ∧
    ({ zero_settings with reverse := 32 } : cups_settings_s).reverse * 8 = 256 := by
  constructor <;> decide

/-- C20: for a pending run of `n > 0` blank lines the flush writes `n/256` commands
`1B 4A FF` followed by one command `1B 4A (n mod 256)`, and for `n = 0` it writes
nothing; a turn of the line loop that meets a non-blank line writes the flush first
and leaves the counter at 0. -/
theorem flush_blank_lines_steps (n : Nat) :
    flush_blank_lines n =
      (if 0 < n then
        (List.replicate (n / 256) [0x1b, 0x4a, 0xff]).flatten ++ [0x1b, 0x4a, n % 256]
       else []) ∧
    (∀ (raster_data : List Nat) (w : Nat), w ≤ raster_data.length →
      scan_last_black raster_data w ≠ -1 →
      ∃ line_bytes, encode_line raster_data (w : Int) n
        = some (flush_blank_lines n ++ line_bytes, 0)) := by
  constructor
  · unfold flush_blank_lines
    by_cases h : 0 < n
    · simp only [gt_iff_lt, if_pos h, esc_J_255_eq]
    · simp only [gt_iff_lt, if_neg h]
  · intro raster_data w hw hs
    refine ⟨[0x1b, 0x73]
      ++ [to_byte (if scan_last_black raster_data w + 1 > 254 then 255
            else scan_last_black raster_data w + 1)]
      ++ ((raster_data.take (scan_last_black raster_data w + 1).toNat).map
            (fun b => b % 256)), ?_⟩
    simp only [encode_line, Int.toNat_ofNat, if_pos hw, if_neg hs, List.append_assoc]

/-! ## Job setup and option lookup -/

theorem table_entry_some {α : Type} (table : List α) (i : Int) (h0 : 0 ≤ i)
    (h1 : i < (table.length : Int)) : ∃ x, table_entry table i = some x := by
  have hlt : i.toNat < table.length := by omega
  exact ⟨table.get ⟨i.toNat, hlt⟩, by simp [table_entry, h0, List.getElem?_eq_getElem hlt]⟩

/-- With the four indices inside their tables, the job-wide parameter commands of a
model other than 203 are all written. -/
theorem job_parameters_some (GetPrimaryPulseTime : Nat → Int → Nat)
    (settings : cups_settings_s) (hm : settings.model_number ≠ 203)
    (hs1 : 1 ≤ settings.print_speed) (hs2 : settings.print_speed ≤ 20)
    (hb1 : 1 ≤ settings.burn_time) (hb2 : settings.burn_time ≤ 17)
    (hr1 : 0 ≤ settings.retract_behavior) (hr2 : settings.retract_behavior ≤ 11)
    (hp1 : 0 ≤ settings.page_mode) (hp2 : settings.page_mode ≤ 2) :
    ∃ params, job_parameters GetPrimaryPulseTime settings = some params := by
  obtain ⟨c1, h1⟩ := table_entry_some print_speedCommand (settings.print_speed - 1)
    (by omega) (by simp [print_speedCommand]; omega)
  obtain ⟨c2, h2⟩ := table_entry_some burn_timeCommand (settings.burn_time - 1)
    (by omega) (by simp [burn_timeCommand]; omega)
  obtain ⟨c3, h3⟩ := table_entry_some wasteBasketCommand settings.retract_behavior
    hr1 (by simp [wasteBasketCommand]; omega)
  obtain ⟨c4, h4⟩ := table_entry_some page_modeCommand settings.page_mode
    hp1 (by simp [page_modeCommand]; omega)
  refine ⟨output_command c1 ++ output_command c2 ++ output_command c3 ++ output_command c4
    ++ set_bm_params settings, ?_⟩
  simp only [job_parameters, if_neg hm, h1, h2, h3, h4]

/-- C14 as stated fails on model 203: `job_setup` leaves a `partial_cut` of 1 as it is. -/
theorem job_setup_203_keeps_partial_cut :
    (job_setup (fun _ _ => 0)
        { zero_settings with model_number := 203, print_speed := 1, burn_time := 1,
                             partial_cut := 1 }).map (fun r => r.2.partial_cut)
      = some 1 := by
  decide

/-- C14, amended: for every settings record whose model is none of 2000, 2100 and 203,
`partial_cut` is 0 in the record that `job_setup` leaves, whatever it was before; and
`job_setup` does return one when the table indices are in range. -/
theorem job_setup_partial_cut (GetPrimaryPulseTime : Nat → Int → Nat)
    (settings : cups_settings_s)
    (hm : settings.model_number ≠ 2000 ∧ settings.model_number ≠ 2100
      ∧ settings.model_number ≠ 203) :
    (∀ r, job_setup GetPrimaryPulseTime settings = some r → r.2.partial_cut = 0) ∧
    (1 ≤ settings.print_speed → settings.print_speed ≤ 20 →
      1 ≤ settings.burn_time → settings.burn_time ≤ 17 →
      0 ≤ settings.retract_behavior → settings.retract_behavior ≤ 11 →
      0 ≤ settings.page_mode → settings.page_mode ≤ 2 →
      ∃ out s, job_setup GetPrimaryPulseTime settings = some (out, s) ∧ s.partial_cut = 0) := by
  obtain ⟨h2000, h2100, h203⟩ := hm
  have hfam : ¬ (settings.model_number = 2000 ∨ settings.model_number = 2100) := by
    rintro (h | h)
    · exact h2000 h
    · exact h2100 h
  have hloop : set_loop_length settings
      = some [0x1b, 0x26, 0x50, 0x09, to_byte settings.loop_length] := by
    simp only [set_loop_length, if_neg h203]
  constructor
  · intro r hr
    cases hp : job_parameters GetPrimaryPulseTime settings with
    | none => simp [job_setup, hp] at hr
    | some params =>
      simp only [job_setup, hp, hloop, if_neg hfam, ne_eq, h203, not_false_eq_true, if_true,
        Option.some.injEq] at hr
      rw [← hr]
  · intro hs1 hs2 hb1 hb2 hr1 hr2 hp1 hp2
    obtain ⟨params, hp⟩ := job_parameters_some GetPrimaryPulseTime settings h203
      hs1 hs2 hb1 hb2 hr1 hr2 hp1 hp2
    refine ⟨params ++ [0x1b, 0x26, 0x50, 0x09, to_byte settings.loop_length],
      { settings with partial_cut := 0 }, ?_, rfl⟩
    simp only [job_setup, hp, hloop, if_neg hfam, ne_eq, h203, not_false_eq_true, if_true]

/-- Witness for `job_setup_partial_cut`: model 8200 with `partial_cut = 1`. -/
theorem job_setup_partial_cut_witness :
    ∃ out s, job_setup (fun _ _ => 0)
        { zero_settings with model_number := 8200, print_speed := 1, burn_time := 1,
                             partial_cut := 1 } = some (out, s) ∧ s.partial_cut = 0 :=
  (job_setup_partial_cut (fun _ _ => 0)
    { zero_settings with model_number := 8200, print_speed := 1, burn_time := 1,
                         partial_cut := 1 }
    (by decide)).2 (by decide) (by decide) (by decide) (by decide) (by decide) (by decide)
      (by decide) (by decide)

/-- C15 as stated fails on model 2100: the output of `job_setup` ends with the
loop-length command and the partial-cut command; the system bitfield command
`1B 26 50 39 F9` is not written before them. -/
theorem job_setup_2100_output :
    (job_setup (fun _ _ => 0)
        { zero_settings with model_number := 2100, print_speed := 1, burn_time := 1,
                             clr_pres := 1, partial_cut := 1 }).map Prod.fst
      = some [0x1b, 0x26, 0x50, 0x08, 0x01, 0x1b, 0x26, 0x50, 0x07, 0x00,
              0x1b, 0x26, 0x50, 0x2d, 0x00, 0x1b, 0x26, 0x50, 0x24, 0x01,
              0x1b, 0x26, 0x50, 0x28, 0, 0x1b, 0x26, 0x50, 0x27, 0,
              0x1b, 0x26, 0x50, 0x29, 0, 0x1b, 0x26, 0x50, 0x2a, 0,
              0x1b, 0x26, 0x50, 0x09, 0, 0x1b, 0x26, 0x50, 0x3c, 1] ∧
    ¬ ([0x1b, 0x26, 0x50, 0x39, 249, 0x1b, 0x26, 0x50, 0x3c, 1] <:+
        [0x1b, 0x26, 0x50, 0x08, 0x01, 0x1b, 0x26, 0x50, 0x07, 0x00,
         0x1b, 0x26, 0x50, 0x2d, 0x00, 0x1b, 0x26, 0x50, 0x24, 0x01,
         0x1b, 0x26, 0x50, 0x28, 0, 0x1b, 0x26, 0x50, 0x27, 0,
         0x1b, 0x26, 0x50, 0x29, 0, 0x1b, 0x26, 0x50, 0x2a, 0,
         0x1b, 0x26, 0x50, 0x09, 0, 0x1b, 0x26, 0x50, 0x3c, 1]) := by
  constructor <;> decide

/-- C15, amended: whenever the job-wide parameter commands and the loop-length command
are written, the output of `job_setup` is these followed, on model 2000, by the system
bitfield command `1B 26 50 39 v` with `v = (248 + pull_detect + vert_mode + clr_pres)
mod 256` and then the partial-cut command `1B 26 50 3C (partial_cut mod 256)`; on model
2100 by the partial-cut command alone; and on every other model by nothing. -/
theorem job_setup_system_commands (GetPrimaryPulseTime : Nat → Int → Nat)
    (settings : cups_settings_s) (params loop : List Nat)
    (hp : job_parameters GetPrimaryPulseTime settings = some params)
    (hl : set_loop_length settings = some loop) :
    ∃ s, job_setup GetPrimaryPulseTime settings =
      some (params ++ loop ++
        (if settings.model_number = 2000 then
          [0x1b, 0x26, 0x50, 0x39,
            ((248 + (settings.pull_detect + settings.vert_mode + settings.clr_pres)) % 256).toNat,
           0x1b, 0x26, 0x50, 0x3c, (settings.partial_cut % 256).toNat]
         else if settings.model_number = 2100 then
          [0x1b, 0x26, 0x50, 0x3c, (settings.partial_cut % 256).toNat]
         else []), s) := by
  by_cases h2000 : settings.model_number = 2000
  · refine ⟨settings, ?_⟩
    simp [job_setup, hp, hl, h2000, set_sys_params, set_partial_cut, to_byte]
  · by_cases h2100 : settings.model_number = 2100
    · refine ⟨settings, ?_⟩
      simp [job_setup, hp, hl, h2100, set_sys_params, set_partial_cut, to_byte]
    · have hfam : ¬ (settings.model_number = 2000 ∨ settings.model_number = 2100) := by
        rintro (h | h)
        · exact h2000 h
        · exact h2100 h
      by_cases h203 : settings.model_number = 203
      · refine ⟨settings, ?_⟩
        simp [job_setup, hp, hl, h203]
      · refine ⟨{ settings with partial_cut := 0 }, ?_⟩
        simp [job_setup, hp, hl, hfam, h2000, h2100, h203]

/-- Witness for `job_setup_system_commands`: model 2000 with `clr_pres = 1` and
`partial_cut = 1`. -/
theorem job_setup_system_commands_witness :
    ∃ s, job_setup (fun _ _ => 0)
        { zero_settings with model_number := 2000, print_speed := 1, burn_time := 1,
                             clr_pres := 1, partial_cut := 1 } =
      some ([0x1b, 0x26, 0x50, 0x08, 0x01, 0x1b, 0x26, 0x50, 0x07, 0x00,
             0x1b, 0x26, 0x50, 0x2d, 0x00, 0x1b, 0x26, 0x50, 0x24, 0x01,
             0x1b, 0x26, 0x50, 0x28, 0, 0x1b, 0x26, 0x50, 0x27, 0,
             0x1b, 0x26, 0x50, 0x29, 0, 0x1b, 0x26, 0x50, 0x2a, 0]
            ++ [0x1b, 0x26, 0x50, 0x09, 0]
            ++ [0x1b, 0x26, 0x50, 0x39, 249, 0x1b, 0x26, 0x50, 0x3c, 1], s) :=
  job_setup_system_commands (fun _ _ => 0)
    { zero_settings with model_number := 2000, print_speed := 1, burn_time := 1,
                         clr_pres := 1, partial_cut := 1 }
    [0x1b, 0x26, 0x50, 0x08, 0x01, 0x1b, 0x26, 0x50, 0x07, 0x00,
     0x1b, 0x26, 0x50, 0x2d, 0x00, 0x1b, 0x26, 0x50, 0x24, 0x01,
     0x1b, 0x26, 0x50, 0x28, 0, 0x1b, 0x26, 0x50, 0x27, 0,
     0x1b, 0x26, 0x50, 0x29, 0, 0x1b, 0x26, 0x50, 0x2a, 0]
    [0x1b, 0x26, 0x50, 0x09, 0] (by decide) (by decide)

/-- C16 as stated fails: on a PPD file without the option `Reverse` the lookup returns
-1, not 0, and `initialize_settings` stores -1 in `reverse`. -/
theorem unresolved_option_not_zero :
    get_option_choice_index atoi_value "Reverse" (empty_ppd 8200) = -1 ∧
    get_option_choice_index atoi_value "Reverse" (empty_ppd 8200) ≠ 0 ∧
    (settings_of_ppd atoi_value (empty_ppd 8200)).reverse = -1 := by
  refine ⟨by decide, by decide, by decide⟩

/-- C16, amended: for every option name that the configuration provider cannot resolve
(no marked choice, and either no such option or no choice found for its default),
`get_option_choice_index` returns -1, so the settings field that
`initialize_settings` fills from that name is -1. -/
theorem unresolved_option_index (atoi : List Char → Int) (ppd : ppd_file_t) (name : String)
    (hmarked : ppd.ppdFindMarkedChoice name = none)
    (hopt : ppd.ppdFindOption name = none ∨
      ∃ o, ppd.ppdFindOption name = some o ∧ o.ppdFindChoice o.defchoice = none) :
    get_option_choice_index atoi name ppd = -1 ∧
    (name = "pageMode" → (settings_of_ppd atoi ppd).page_mode = -1) ∧
    (name = "BidiPrinting" → (settings_of_ppd atoi ppd).bidirectional = -1) ∧
    (name = "PageCutType" → (settings_of_ppd atoi ppd).page_cut_type = -1) ∧
    (name = "Resolution" → (settings_of_ppd atoi ppd).resolution = -1) ∧
    (name = "PrintSpeed" → (settings_of_ppd atoi ppd).print_speed = -1) ∧
    (name = "Darkness" → ppd.model_number = 203 →
      (settings_of_ppd atoi ppd).burn_time = -1) ∧
    (name = "EjectOptions" → ppd.model_number = 203 →
      (settings_of_ppd atoi ppd).retract_behavior = -1) ∧
    (name = "BurnTime" → ppd.model_number ≠ 203 →
      (settings_of_ppd atoi ppd).burn_time = -1) ∧
    (name = "BMMin" → ppd.model_number ≠ 203 →
      (settings_of_ppd atoi ppd).black_mark_min = -1) ∧
    (name = "BMMax" → ppd.model_number ≠ 203 →
      (settings_of_ppd atoi ppd).black_mark_max = -1) ∧
    (name = "BMCutPos" → ppd.model_number ≠ 203 →
      (settings_of_ppd atoi ppd).black_mark_cut_pos = -1) ∧
    (name = "RetractOptions" → ppd.model_number ≠ 203 →
      (settings_of_ppd atoi ppd).retract_behavior = -1) ∧
    (name = "VertMode" → ppd.model_number ≠ 203 →
      (settings_of_ppd atoi ppd).vert_mode = -1) ∧
    (name = "PullDetect" → ppd.model_number ≠ 203 →
      (settings_of_ppd atoi ppd).pull_detect = -1) ∧
    (name = "ClearPresenter" → (settings_of_ppd atoi ppd).clear_presenter = -1) ∧
    (name = "Reverse" → (settings_of_ppd atoi ppd).reverse = -1) ∧
    (name = "Eject" → (settings_of_ppd atoi ppd).eject = -1) ∧
    (name = "LoopLength" → (settings_of_ppd atoi ppd).loop_length = -1) ∧
    (name = "PartialCut" → (settings_of_ppd atoi ppd).partial_cut = -1) := by
  have hidx : get_option_choice_index atoi name ppd = -1 := by
    unfold get_option_choice_index
    rw [hmarked]
    rcases hopt with h | ⟨o, ho, hc⟩
    · simp only [h]
    · simp only [ho, hc]
  refine ⟨hidx, ?_, ?_, ?_, ?_, ?_, ?_, ?_, ?_, ?_, ?_, ?_, ?_, ?_, ?_, ?_, ?_, ?_, ?_, ?_⟩
  all_goals first
    | (intro hn; subst hn; rw [← hidx]; simp only [settings_of_ppd, initialize_settings]
       split <;> rfl)
    | (intro hn; subst hn; rw [← hidx]; rfl)
    | (intro hn hmod; subst hn; rw [← hidx]
       simp only [settings_of_ppd, initialize_settings, hmod, if_true, if_false,
         ne_eq, not_false_eq_true])

/-- Witness for `unresolved_option_index`: the option `Reverse` on a PPD file without
options. -/
theorem unresolved_option_index_witness :
    (settings_of_ppd atoi_value (empty_ppd 8200)).reverse = -1 :=
  (unresolved_option_index atoi_value (empty_ppd 8200) "Reverse" rfl (Or.inl rfl)).2.2.2.2.2.2.2.2.2.2.2.2.2.2.2.2.1
    rfl

/-! ## Pages: scenario A and trailing blank lines -/

theorem page_settings_fields (settings : cups_settings_s) (header : cups_page_header2_t) :
    (page_settings settings header).model_number = settings.model_number ∧
    (page_settings settings header).page_cut_type = settings.page_cut_type ∧
    (page_settings settings header).partial_cut = settings.partial_cut := by
  unfold page_settings negotiate_bytes_per_scanline
  split <;> exact ⟨rfl, rfl, rfl⟩

theorem page_loop_single (settings : cups_settings_s) (page : raster_page)
    (body buf : List Nat)
    (hne : ¬ (page.header.cupsHeight = 0 ∨ page.header.cupsBytesPerLine = 0))
    (hbody : line_loop (page_settings settings page.header).bytes_per_scanline
      page.header.cupsHeight page.lines (List.replicate page.header.cupsBytesPerLine 0) 0
        = some (body, buf)) :
    page_loop settings none [page]
      = some (page_setup settings page.header ++ body
          ++ end_page (page_settings settings page.header),
        page_settings settings page.header) := by
  unfold page_settings at hbody ⊢
  simp only [page_loop, if_neg hne, Option.getD_none, hbody, List.append_nil]

/-- C17: scenario A.  On a page of height 8 scanned one byte wide whose lines are `00`
except line 3, which is `0F`, the line loop writes exactly `1B 4A 03 1B 73 01 0F`;
with `page_cut_type = 1` and `partial_cut = 0` the page loop writes the page setup,
that body, and then the advance command followed by `1B 1E` as the last two bytes. -/
theorem scenario_A (settings : cups_settings_s)
    (hcut : settings.page_cut_type = 1) (hpc : settings.partial_cut = 0)
    (hw : (page_settings settings scenario_A_page.header).bytes_per_scanline = 1) :
    (line_loop 1 8 scenario_A_page.lines [0] 0).map Prod.fst
      = some [0x1b, 0x4a, 0x03, 0x1b, 0x73, 0x01, 0x0f] ∧
    end_page (page_settings settings scenario_A_page.header)
      = do_advance settings ++ [0x1b, 0x1e] ∧
    (page_loop settings none [scenario_A_page]).map Prod.fst
      = some (page_setup settings scenario_A_page.header
          ++ [0x1b, 0x4a, 0x03, 0x1b, 0x73, 0x01, 0x0f]
          ++ (do_advance settings ++ [0x1b, 0x1e])) := by
  have hbody : line_loop 1 8 scenario_A_page.lines [0] 0
      = some ([0x1b, 0x4a, 0x03, 0x1b, 0x73, 0x01, 0x0f], [0]) := by decide
  obtain ⟨hmod, hct, hp⟩ := page_settings_fields settings scenario_A_page.header
  have hend : end_page (page_settings settings scenario_A_page.header)
      = do_advance settings ++ [0x1b, 0x1e] := by
    have hcmd : output_command endPageCommand = [0x1b, 0x1e] := by decide
    simp only [end_page, do_advance, hmod, hct, hp, hcut, hpc, if_true, hcmd]
  refine ⟨by rw [hbody]; rfl, hend, ?_⟩
  have hloop := page_loop_single settings scenario_A_page
    [0x1b, 0x4a, 0x03, 0x1b, 0x73, 0x01, 0x0f] [0] (by decide) (by rw [hw]; exact hbody)
  rw [hloop, hend]
  rfl

/-- Witness for `scenario_A`: model 2000 with cut per page and no partial cut. -/
theorem scenario_A_witness :
    (page_loop { initialize_settings 2000 (fun _ => 0) with page_cut_type := 1 } none
        [scenario_A_page]).map Prod.fst
      = some (page_setup { initialize_settings 2000 (fun _ => 0) with page_cut_type := 1 }
            scenario_A_page.header
          ++ [0x1b, 0x4a, 0x03, 0x1b, 0x73, 0x01, 0x0f]
          ++ (do_advance { initialize_settings 2000 (fun _ => 0) with page_cut_type := 1 }
            ++ [0x1b, 0x1e])) :=
  (scenario_A { initialize_settings 2000 (fun _ => 0) with page_cut_type := 1 }
    rfl rfl (by decide)).2.2

theorem read_pixels_length (raster_data line buf : List Nat)
    (h : read_pixels raster_data line = some buf) : buf.length = raster_data.length := by
  unfold read_pixels at h
  split at h
  · rename_i hle
    simp only [Option.some.injEq] at h
    rw [← h, List.length_append, List.length_drop]
    omega
  · simp at h

/-- A blank line of `L` bytes read into a buffer that holds it, and scanned at most `L`
bytes wide, writes nothing and adds one to the counter. -/
theorem blank_line_step (w L : Nat) (hwL : w ≤ L) (raster_data : List Nat)
    (hbuf : L ≤ raster_data.length) (n : Nat) :
    ∃ buf, read_pixels raster_data (List.replicate L 0) = some buf ∧
      buf.length = raster_data.length ∧
      encode_line buf (w : Int) n = some ([], n + 1) := by
  have hread : read_pixels raster_data (List.replicate L 0)
      = some (List.replicate L 0 ++ raster_data.drop L) := by
    simp [read_pixels, hbuf]
  refine ⟨_, hread, read_pixels_length _ _ _ hread, ?_⟩
  have hlen : (List.replicate L 0 ++ raster_data.drop L).length = raster_data.length :=
    read_pixels_length _ _ _ hread
  have hzero : ∀ j, j < w → (List.replicate L 0 ++ raster_data.drop L).getD j 0 = 0 := by
    intro j hj
    have hjL : j < (List.replicate L 0).length := by simp; omega
    have hjL2 : j < L := by omega
    rw [List.getD_eq_getElem?_getD, List.getElem?_append_left hjL]
    simp [List.getElem?_replicate, hjL2]
  have hs := scan_last_black_blank _ w hzero
  have hw2 : w ≤ (List.replicate L 0 ++ raster_data.drop L).length := by omega
  simp only [encode_line, Int.toNat_ofNat, if_pos hw2, hs, if_true]

/-- A page body made of blank lines only is empty. -/
theorem blank_lines_body (w L : Nat) (hwL : w ≤ L) (k y : Nat) (raster_data : List Nat)
    (hbuf : L ≤ raster_data.length) (n : Nat) :
    (line_loop (w : Int) y (List.replicate k (List.replicate L 0)) raster_data n).map Prod.fst
      = some [] := by
  induction k generalizing y raster_data n with
  | zero => cases y <;> rfl
  | succ k ih =>
    cases y with
    | zero => rfl
    | succ y =>
      obtain ⟨buf, hread, hlen, henc⟩ := blank_line_step w L hwL raster_data hbuf n
      have hrec := ih y buf (by omega) (n + 1)
      rw [List.replicate_succ]
      simp only [line_loop, hread, henc]
      cases hl : line_loop (w : Int) y (List.replicate k (List.replicate L 0)) buf (n + 1) with
      | none => rw [hl] at hrec; simp at hrec
      | some r =>
        rw [hl] at hrec
        simp only [Option.map_some', Option.some.injEq] at hrec
        simp [hrec]

/-- Trailing blank lines are dropped when the scan is no wider than the lines:
appending `k` blank lines (of `L` bytes, scanned at most `L` bytes wide, in a buffer
that holds them) to the end of a page of `y` lines leaves the page body unchanged,
and a page of blank lines only has an empty body. -/
theorem trailing_blank_lines (w L : Nat) (hwL : w ≤ L) (lines : List (List Nat)) (y : Nat)
    (hy : lines.length ≤ y) (raster_data : List Nat) (hbuf : L ≤ raster_data.length)
    (n k : Nat) :
    (line_loop (w : Int) (y + k) (lines ++ List.replicate k (List.replicate L 0))
        raster_data n).map Prod.fst
      = (line_loop (w : Int) y lines raster_data n).map Prod.fst ∧
    (line_loop (w : Int) k (List.replicate k (List.replicate L 0)) raster_data n).map Prod.fst
      = some [] := by
  refine ⟨?_, blank_lines_body w L hwL k k raster_data hbuf n⟩
  induction lines generalizing y raster_data n with
  | nil =>
    rw [List.nil_append, blank_lines_body w L hwL k (y + k) raster_data hbuf n]
    cases y <;> rfl
  | cons line rest ih =>
    cases y with
    | zero => simp at hy
    | succ y =>
      have hy2 : rest.length ≤ y := by simpa using hy
      have hsucc : y + 1 + k = (y + k) + 1 := by omega
      rw [hsucc, List.cons_append]
      cases hread : read_pixels raster_data line with
      | none => simp only [line_loop, hread]
      | some buf =>
        have hlen := read_pixels_length _ _ _ hread
        cases henc : encode_line buf (w : Int) n with
        | none => simp only [line_loop, hread, henc]
        | some r =>
          obtain ⟨bytes, m⟩ := r
          have hrec := ih y hy2 buf (by omega) m
          simp only [line_loop, hread, henc]
          cases h1 : line_loop (w : Int) (y + k)
              (rest ++ List.replicate k (List.replicate L 0)) buf m with
          | none =>
            rw [h1] at hrec
            cases h2 : line_loop (w : Int) y rest buf m with
            | none => rfl
            | some r2 => rw [h2] at hrec; simp at hrec
          | some r1 =>
            rw [h1] at hrec
            cases h2 : line_loop (w : Int) y rest buf m with
            | none => rw [h2] at hrec; simp at hrec
            | some r2 =>
              rw [h2] at hrec
              simp only [Option.map_some', Option.some.injEq] at hrec
              simp only [Option.map_some', hrec]

/-- An instance of `trailing_blank_lines`: two blank lines after the lines `00` and
`0F`, scanned one byte wide. -/
theorem trailing_blank_lines_witness :
    (line_loop 1 (2 + 2) ([[0], [0x0f]] ++ List.replicate 2 (List.replicate 1 0)) [0] 0).map
        Prod.fst
      = (line_loop 1 2 [[0], [0x0f]] [0] 0).map Prod.fst :=
  (trailing_blank_lines 1 1 (by decide) [[0], [0x0f]] 2 (by decide) [0] (by decide) 0 2).1

/-- C18, evaluated on model 2000 (standard width 80) for pages of 100, 40 and 60 bytes
per line.  The line loop of the third page runs 80 bytes wide, because the per-page
update compares its 60 bytes with the 40 left by the second page, and so reads, past
the 60 bytes of each line, the byte `AA` that the first page left in the buffer.
When the third page is one blank line its body is `1B 73 47`, 70 zero bytes and `AA`,
not empty; when it is the line `02 00 ... 00` followed by a blank line, the blank
line adds these 74 bytes to the body.  The blank page alone, as the first page of a
job, has an empty body. -/
theorem blank_page_after_wider_page :
    scan_widths (initialize_settings 2000 (fun _ => 0))
        [⟨1, 100⟩, ⟨1, 40⟩, ⟨1, 60⟩] = [80, 40, 80] ∧
    (page_loop (initialize_settings 2000 (fun _ => 0)) none
        [⟨⟨1, 100⟩, [List.replicate 70 0 ++ [0xaa] ++ List.replicate 29 0]⟩,
         ⟨⟨1, 40⟩, [[1] ++ List.replicate 39 0]⟩,
         ⟨⟨1, 60⟩, [List.replicate 60 0]⟩]).map Prod.fst
      = some ([0x1b, 0x26, 0x50, 0x25, 0, 0x1b, 0x26, 0x50, 0x26, 1]
          ++ [0x1b, 0x73, 71] ++ List.replicate 70 0 ++ [0xaa] ++ [0x1b, 0x4a, 96]
          ++ [0x1b, 0x26, 0x50, 0x25, 0, 0x1b, 0x26, 0x50, 0x26, 1]
          ++ [0x1b, 0x73, 1, 1] ++ [0x1b, 0x4a, 96]
          ++ [0x1b, 0x26, 0x50, 0x25, 0, 0x1b, 0x26, 0x50, 0x26, 1]
          ++ [0x1b, 0x73, 71] ++ List.replicate 70 0 ++ [0xaa] ++ [0x1b, 0x4a, 96]) ∧
    (page_loop (initialize_settings 2000 (fun _ => 0)) none
        [⟨⟨1, 100⟩, [List.replicate 70 0 ++ [0xaa] ++ List.replicate 29 0]⟩,
         ⟨⟨1, 40⟩, [[1] ++ List.replicate 39 0]⟩,
         ⟨⟨2, 60⟩, [[2] ++ List.replicate 59 0, List.replicate 60 0]⟩]).map Prod.fst
      = some ([0x1b, 0x26, 0x50, 0x25, 0, 0x1b, 0x26, 0x50, 0x26, 1]
          ++ [0x1b, 0x73, 71] ++ List.replicate 70 0 ++ [0xaa] ++ [0x1b, 0x4a, 96]
          ++ [0x1b, 0x26, 0x50, 0x25, 0, 0x1b, 0x26, 0x50, 0x26, 1]
          ++ [0x1b, 0x73, 1, 1] ++ [0x1b, 0x4a, 96]
          ++ [0x1b, 0x26, 0x50, 0x25, 0, 0x1b, 0x26, 0x50, 0x26, 1]
          ++ [0x1b, 0x73, 71, 2] ++ List.replicate 69 0 ++ [0xaa]
          ++ [0x1b, 0x73, 71] ++ List.replicate 70 0 ++ [0xaa] ++ [0x1b, 0x4a, 96]) ∧
    (page_loop (initialize_settings 2000 (fun _ => 0)) none
        [⟨⟨1, 60⟩, [List.replicate 60 0]⟩]).map Prod.fst
      = some ([0x1b, 0x26, 0x50, 0x25, 0, 0x1b, 0x26, 0x50, 0x26, 1]
          ++ [0x1b, 0x4a, 96]) := by
  refine ⟨by decide, ?_, ?_, ?_⟩
  · set_option maxRecDepth 100000 in decide
  · set_option maxRecDepth 100000 in decide
  · set_option maxRecDepth 100000 in decide

/-! ## Pulse-time encoding and the tables -/

/-- C22: `SetBurntime` writes exactly twelve bytes, the secondary value first:
`1B 26 70 06 hs ls` and then `1B 26 70 07 hp lp`, each pair being the second and the
lowest byte of the value (little-endian host); for a value below 65536 the pair
recombines to the value. -/
theorem SetBurntime_output (primaryPulse secondaryPulse : Nat) :
    SetBurntime primaryPulse secondaryPulse =
      [0x1b, 0x26, 0x70, 0x06, secondaryPulse / 256 % 256, secondaryPulse % 256,
       0x1b, 0x26, 0x70, 0x07, primaryPulse / 256 % 256, primaryPulse % 256] ∧
    (SetBurntime primaryPulse secondaryPulse).length = 12 ∧
    (secondaryPulse < 65536 →
      256 * (secondaryPulse / 256 % 256) + secondaryPulse % 256 = secondaryPulse) ∧
    (primaryPulse < 65536 →
      256 * (primaryPulse / 256 % 256) + primaryPulse % 256 = primaryPulse) := by
  refine ⟨rfl, rfl, ?_, ?_⟩ <;> intro h <;> omega

/-- C28, evaluated on the two tables: the speed bytes of `kr_print_speedCommand` are
72, 80, 85, ..., 152 while `kr_speedCommand` starts with 75, so the tables differ at
index 0; with `print_speed = 1` on model 203 `job_setup` sends the speed byte `48`
(72) while both pulse times are computed for the speed 75. -/
theorem kr_speed_tables_differ :
    kr_print_speedCommand.map (fun c => c.command.getD 4 0)
      = [72, 80, 85, 90, 95, 100, 105, 110, 115, 120, 125, 130, 135, 140, 145, 152] ∧
    kr_speedCommand
      = [75, 80, 85, 90, 95, 100, 105, 110, 115, 120, 125, 130, 135, 140, 145, 152] ∧
    (table_entry kr_print_speedCommand 0).map (fun c => c.command.getD 4 0) = some 72 ∧
    table_entry kr_speedCommand 0 = some 75 ∧
    (job_setup (fun speed _ => speed)
        { zero_settings with model_number := 203, print_speed := 1, burn_time := 1 }).map
        Prod.fst
      = some [0x1b, 0x26, 0x70, 0x06, 0, 150, 0x1b, 0x26, 0x70, 0x07, 0, 75,
              0x1b, 0x26, 0x70, 0x08, 0x48, 0x1b, 0x26, 0x70, 0x23, 0x00,
              0x1b, 0x26, 0x70, 0x2d, 0x00, 0, 0x1b, 0x26, 0x70, 0x09, 0, 0x00] := by
  refine ⟨by decide, by decide, by decide, by decide, by decide⟩

/-- C29, evaluated on the table: the values `256*hi + lo` of `ejectTimeoutCommand` are
`10*k` up to index 25 and 261, 271, 281, 291, 301 from index 26 on; the entry at
index 26 is `1B 26 70 2D 01 05`, which is 261 and not 260. -/
theorem ejectTimeoutCommand_values :
    ejectTimeoutCommand.map (fun c => 256 * c.command.getD 4 0 + c.command.getD 5 0)
      = [0, 10, 20, 30, 40, 50, 60, 70, 80, 90, 100, 110, 120, 130, 140, 150, 160, 170,
         180, 190, 200, 210, 220, 230, 240, 250, 261, 271, 281, 291, 301] ∧
    (table_entry ejectTimeoutCommand 26).map output_command
      = some [0x1b, 0x26, 0x70, 0x2d, 1, 5] ∧
    256 * 1 + 5 ≠ 10 * 26 ∧
    (job_parameters (fun _ _ => 0)
        { zero_settings with model_number := 203, print_speed := 1, burn_time := 1,
                             retract_behavior := 26 }).map (fun out => out.drop 22)
      = some [0x1b, 0x26, 0x70, 0x2d, 1, 5] := by
  refine ⟨by decide, by decide, by decide, by decide⟩

/-! ## Job setup on the static-table families -/

theorem print_speed_entry (i : Int) (h1 : 1 ≤ i) (h2 : i ≤ 19) :
    ∃ c, table_entry print_speedCommand (i - 1) = some c ∧
      output_command c = [0x1b, 0x26, 0x50, 0x08, i.toNat] := by
  interval_cases i <;> exact ⟨_, rfl, rfl⟩

theorem burn_time_entry (i : Int) (h1 : 1 ≤ i) (h2 : i ≤ 17) :
    ∃ c, table_entry burn_timeCommand (i - 1) = some c ∧
      output_command c = [0x1b, 0x26, 0x50, 0x07, (i - 1).toNat] := by
  interval_cases i <;> exact ⟨_, rfl, rfl⟩

theorem waste_basket_entry (i : Int) (h1 : 0 ≤ i) (h2 : i ≤ 11) :
    ∃ c, table_entry wasteBasketCommand i = some c ∧
      output_command c = [0x1b, 0x26, 0x50, 0x2d,
        ([0, 1, 2, 3, 6, 12, 100, 101, 102, 103, 106, 112] : List Nat).getD i.toNat 0] := by
  interval_cases i <;> exact ⟨_, rfl, rfl⟩

theorem page_mode_entry (i : Int) (h1 : 0 ≤ i) (h2 : i ≤ 2) :
    ∃ c, table_entry page_modeCommand i = some c ∧
      output_command c = [0x1b, 0x26, 0x50, 0x24, ([1, 0, 2] : List Nat).getD i.toNat 0] := by
  interval_cases i <;> exact ⟨_, rfl, rfl⟩

theorem tmod_256_byte (x : Int) : to_byte (Int.tmod x 256) = (x % 256).toNat := by
  unfold to_byte
  have h := Int.tmod_add_tdiv x 256
  generalize Int.tmod x 256 = r at *
  generalize Int.tdiv x 256 = q at *
  have : r % 256 = x % 256 := by omega
  rw [this]

/-- The low byte of an `int` product is the low byte of the exact product. -/
theorem int32_mod_256 (x : Int) : int32 x % 256 = x % 256 := by
  unfold int32
  omega

/-- An exact result from -2^31 to 2^31 - 1 is the value of the `int`. -/
theorem int32_of_range (x : Int) (h1 : -2147483648 ≤ x) (h2 : x < 2147483648) :
    int32 x = x := by
  unfold int32
  omega

/-- C23 as stated fails for a negative cut position: with `black_mark_cut_pos = -1`
(model 8200) the command `1B 26 50 29` carries the byte 0, the quotient of C, which
rounds `-8/256` towards zero, and not `floor(-8/256) mod 256 = 255`. -/
theorem job_setup_negative_cut_pos :
    (job_setup (fun _ _ => 0)
        { zero_settings with model_number := 8200, print_speed := 1, burn_time := 1,
                             black_mark_cut_pos := -1 }).map Prod.fst
      = some [0x1b, 0x26, 0x50, 0x08, 0x01, 0x1b, 0x26, 0x50, 0x07, 0x00,
              0x1b, 0x26, 0x50, 0x2d, 0x00, 0x1b, 0x26, 0x50, 0x24, 0x01,
              0x1b, 0x26, 0x50, 0x28, 0, 0x1b, 0x26, 0x50, 0x27, 0,
              0x1b, 0x26, 0x50, 0x29, 0, 0x1b, 0x26, 0x50, 0x2a, 248,
              0x1b, 0x26, 0x50, 0x09, 0] ∧
    ((8 * (-1 : Int)) / 256 % 256).toNat = 255 := by
  constructor <;> decide

/-- The same for a cut position whose product by 8 does not fit an `int`: with
`black_mark_cut_pos = 268435457 = 2^28 + 1` the product is left as `-2147483640`, and
the command `1B 26 50 29` carries the byte 1, not
`floor(8*268435457/256) mod 256 = 0`. -/
theorem job_setup_wrapped_cut_pos :
    int32 (268435457 * 8) = -2147483640 ∧
    (job_setup (fun _ _ => 0)
        { zero_settings with model_number := 8200, print_speed := 1, burn_time := 1,
                             black_mark_cut_pos := 268435457 }).map Prod.fst
      = some [0x1b, 0x26, 0x50, 0x08, 0x01, 0x1b, 0x26, 0x50, 0x07, 0x00,
              0x1b, 0x26, 0x50, 0x2d, 0x00, 0x1b, 0x26, 0x50, 0x24, 0x01,
              0x1b, 0x26, 0x50, 0x28, 0, 0x1b, 0x26, 0x50, 0x27, 0,
              0x1b, 0x26, 0x50, 0x29, 1, 0x1b, 0x26, 0x50, 0x2a, 8,
              0x1b, 0x26, 0x50, 0x09, 0] ∧
    ((8 * (268435457 : Int)) / 256 % 256).toNat = 0 := by
  refine ⟨by decide, by decide, by decide⟩

/-- C23, amended: for a model other than 203 with `1 <= print_speed <= 19`,
`1 <= burn_time <= 17`, `0 <= retract_behavior <= 11` and `0 <= page_mode <= 2`, the
output of `job_setup` begins with the speed command, the burn command, the
waste-basket command, the page-mode command, the four black-mark commands and the
loop-length command, with the bytes the claim gives, except that the byte `q1` of the
cut position is the quotient by 256, rounded towards zero, of the `int` product
`8*black_mark_cut_pos` as 32 bits hold it, taken modulo 256.  The product is exact
for cut positions from -2^28 to 2^28 - 1, and for those from 0 to 2^28 - 1 the
quotient is the floor, so that `q1` is the byte of the claim. -/
theorem job_setup_static_tables (GetPrimaryPulseTime : Nat → Int → Nat)
    (settings : cups_settings_s) (hm : settings.model_number ≠ 203)
    (hs1 : 1 ≤ settings.print_speed) (hs2 : settings.print_speed ≤ 19)
    (hb1 : 1 ≤ settings.burn_time) (hb2 : settings.burn_time ≤ 17)
    (hr1 : 0 ≤ settings.retract_behavior) (hr2 : settings.retract_behavior ≤ 11)
    (hp1 : 0 ≤ settings.page_mode) (hp2 : settings.page_mode ≤ 2) :
    (∃ rest s, job_setup GetPrimaryPulseTime settings =
      some ([0x1b, 0x26, 0x50, 0x08, settings.print_speed.toNat]
        ++ [0x1b, 0x26, 0x50, 0x07, (settings.burn_time - 1).toNat]
        ++ [0x1b, 0x26, 0x50, 0x2d,
            ([0, 1, 2, 3, 6, 12, 100, 101, 102, 103, 106, 112] : List Nat).getD
              settings.retract_behavior.toNat 0]
        ++ [0x1b, 0x26, 0x50, 0x24, ([1, 0, 2] : List Nat).getD settings.page_mode.toNat 0]
        ++ [0x1b, 0x26, 0x50, 0x28, (8 * settings.black_mark_min % 256).toNat,
            0x1b, 0x26, 0x50, 0x27, (8 * settings.black_mark_max % 256).toNat,
            0x1b, 0x26, 0x50, 0x29,
              (Int.tdiv (int32 (8 * settings.black_mark_cut_pos)) 256 % 256).toNat,
            0x1b, 0x26, 0x50, 0x2a, (8 * settings.black_mark_cut_pos % 256).toNat]
        ++ [0x1b, 0x26, 0x50, 0x09, (settings.loop_length % 256).toNat]
        ++ rest, s)) ∧
    (-268435456 ≤ settings.black_mark_cut_pos → settings.black_mark_cut_pos < 268435456 →
      int32 (8 * settings.black_mark_cut_pos) = 8 * settings.black_mark_cut_pos) ∧
    (0 ≤ settings.black_mark_cut_pos → settings.black_mark_cut_pos < 268435456 →
      (Int.tdiv (int32 (8 * settings.black_mark_cut_pos)) 256 % 256).toNat
        = (8 * settings.black_mark_cut_pos / 256 % 256).toNat) := by
  refine ⟨?_, ?_, ?_⟩
  · obtain ⟨c1, e1, o1⟩ := print_speed_entry settings.print_speed hs1 hs2
    obtain ⟨c2, e2, o2⟩ := burn_time_entry settings.burn_time hb1 hb2
    obtain ⟨c3, e3, o3⟩ := waste_basket_entry settings.retract_behavior hr1 hr2
    obtain ⟨c4, e4, o4⟩ := page_mode_entry settings.page_mode hp1 hp2
    have hbm : set_bm_params settings =
        [0x1b, 0x26, 0x50, 0x28, (8 * settings.black_mark_min % 256).toNat,
         0x1b, 0x26, 0x50, 0x27, (8 * settings.black_mark_max % 256).toNat,
         0x1b, 0x26, 0x50, 0x29,
           (Int.tdiv (int32 (8 * settings.black_mark_cut_pos)) 256 % 256).toNat,
         0x1b, 0x26, 0x50, 0x2a, (8 * settings.black_mark_cut_pos % 256).toNat] := by
      simp only [set_bm_params, tmod_256_byte]
      simp only [to_byte, int32_mod_256, List.cons_append, List.nil_append,
        mul_comm _ (8 : Int)]
    have hparams : job_parameters GetPrimaryPulseTime settings = some
        ([0x1b, 0x26, 0x50, 0x08, settings.print_speed.toNat]
        ++ [0x1b, 0x26, 0x50, 0x07, (settings.burn_time - 1).toNat]
        ++ [0x1b, 0x26, 0x50, 0x2d,
            ([0, 1, 2, 3, 6, 12, 100, 101, 102, 103, 106, 112] : List Nat).getD
              settings.retract_behavior.toNat 0]
        ++ [0x1b, 0x26, 0x50, 0x24, ([1, 0, 2] : List Nat).getD settings.page_mode.toNat 0]
        ++ set_bm_params settings) := by
      simp only [job_parameters, if_neg hm, e1, e2, e3, e4, o1, o2, o3, o4]
    have hloop : set_loop_length settings
        = some [0x1b, 0x26, 0x50, 0x09, (settings.loop_length % 256).toNat] := by
      simp only [set_loop_length, if_neg hm, to_byte]
    by_cases hfam : settings.model_number = 2000 ∨ settings.model_number = 2100
    · refine ⟨set_sys_params settings ++ set_partial_cut settings, settings, ?_⟩
      simp only [job_setup, hparams, hloop, if_pos hfam, hbm, List.append_assoc]
    · refine ⟨[], { settings with partial_cut := 0 }, ?_⟩
      simp only [job_setup, hparams, hloop, if_neg hfam, ne_eq, hm, not_false_eq_true,
        if_true, hbm, List.append_assoc, List.append_nil]
  · intro h1 h2
    exact int32_of_range _ (by omega) (by omega)
  · intro h1 h2
    rw [int32_of_range _ (by omega) (by omega), Int.tdiv_eq_ediv (by omega) (by norm_num)]

/-- Witness for `job_setup_static_tables`: model 8200 with speed 3, burn time 2 and cut
position 40. -/
theorem job_setup_static_tables_witness :
    ∃ rest s, job_setup (fun _ _ => 0)
        { zero_settings with model_number := 8200, print_speed := 3, burn_time := 2,
                             black_mark_cut_pos := 40 } =
      some ([0x1b, 0x26, 0x50, 0x08, 3] ++ [0x1b, 0x26, 0x50, 0x07, 1]
        ++ [0x1b, 0x26, 0x50, 0x2d, 0] ++ [0x1b, 0x26, 0x50, 0x24, 1]
        ++ [0x1b, 0x26, 0x50, 0x28, 0, 0x1b, 0x26, 0x50, 0x27, 0,
            0x1b, 0x26, 0x50, 0x29, 1, 0x1b, 0x26, 0x50, 0x2a, 64]
        ++ [0x1b, 0x26, 0x50, 0x09, 0] ++ rest, s) :=
  (job_setup_static_tables (fun _ _ => 0)
    { zero_settings with model_number := 8200, print_speed := 3, burn_time := 2,
                         black_mark_cut_pos := 40 }
    (by decide) (by decide) (by decide) (by decide) (by decide) (by decide) (by decide)
    (by decide) (by decide)).1

/-! ## The page loop: empty pages, trimming, widths, cuts -/

/-- An empty page header stops the page loop: the pages before it are all that is
processed. -/
theorem page_loop_stops (e : raster_page) (r : List raster_page)
    (he : e.header.cupsHeight = 0 ∨ e.header.cupsBytesPerLine = 0)
    (ps : List raster_page) (settings : cups_settings_s) (raster_data : Option (List Nat)) :
    page_loop settings raster_data (ps ++ e :: r) = page_loop settings raster_data ps := by
  induction ps generalizing settings raster_data with
  | nil => simp only [List.nil_append, page_loop, if_pos he]
  | cons p ps ih =>
    rw [List.cons_append]
    by_cases hp : p.header.cupsHeight = 0 ∨ p.header.cupsBytesPerLine = 0
    · simp only [page_loop, if_pos hp]
    · simp only [page_loop, if_neg hp]
      split
      · rfl
      · rw [ih]

/-- C24: a page header with height 0 or bytes-per-line 0 ends the page loop but not the
job.  The job output for the pages `ps`, the empty page `e` and any further pages `r`
equals the job output for `ps` alone: nothing is written for `e` or for a page of
`r`, and the output still ends with that of `end_job`. -/
theorem empty_page_ends_page_loop (GetPrimaryPulseTime : Nat → Int → Nat)
    (settings : cups_settings_s) (ps : List raster_page) (e : raster_page)
    (r : List raster_page)
    (he : e.header.cupsHeight = 0 ∨ e.header.cupsBytesPerLine = 0) :
    main GetPrimaryPulseTime settings (ps ++ e :: r) = main GetPrimaryPulseTime settings ps ∧
    (∀ setup s1 body s2, job_setup GetPrimaryPulseTime settings = some (setup, s1) →
      page_loop s1 none ps = some (body, s2) →
      main GetPrimaryPulseTime settings (ps ++ e :: r)
        = some (setup ++ body ++ end_job s2)) := by
  constructor
  · unfold main
    cases hj : job_setup GetPrimaryPulseTime settings with
    | none => rfl
    | some js => simp only [page_loop_stops e r he]
  · intro setup s1 body s2 hj hl
    simp only [main, hj, page_loop_stops e r he, hl]

/-- Witness for `empty_page_ends_page_loop`: the page of scenario A, then a page of
height 0, then the page of scenario A again, on model 8200. -/
theorem empty_page_ends_page_loop_witness :
    main (fun _ _ => 0)
        { initialize_settings 8200 (fun _ => 1) with retract_behavior := 0 }
        ([scenario_A_page] ++ ⟨⟨0, 1⟩, []⟩ :: [scenario_A_page])
      = main (fun _ _ => 0)
        { initialize_settings 8200 (fun _ => 1) with retract_behavior := 0 }
        [scenario_A_page] :=
  (empty_page_ends_page_loop (fun _ _ => 0)
    { initialize_settings 8200 (fun _ => 1) with retract_behavior := 0 }
    [scenario_A_page] ⟨⟨0, 1⟩, []⟩ [scenario_A_page] (Or.inl rfl)).1

theorem scan_last_black_cases (raster_data : List Nat) (w : Nat) :
    (scan_last_black raster_data w = -1 ∧ ∀ j, j < w → raster_data.getD j 0 = 0) ∨
    ∃ i, i < w ∧ scan_last_black raster_data w = (i : Int) ∧ raster_data.getD i 0 ≠ 0 ∧
      ∀ j, i < j → j < w → raster_data.getD j 0 = 0 := by
  induction w with
  | zero => exact Or.inl ⟨rfl, fun j hj => absurd hj (Nat.not_lt_zero j)⟩
  | succ k ih =>
    by_cases hk : raster_data.getD k 0 = 0
    · rcases ih with ⟨hs, hz⟩ | ⟨i, hi, hs, hne, hz⟩
      · left
        refine ⟨by simp only [scan_last_black, hk, ne_eq, not_true_eq_false, if_false, hs], ?_⟩
        intro j hj
        by_cases hjk : j = k
        · rw [hjk]; exact hk
        · exact hz j (by omega)
      · right
        refine ⟨i, by omega,
          by simp only [scan_last_black, hk, ne_eq, not_true_eq_false, if_false, hs], hne, ?_⟩
        intro j h1 h2
        by_cases hjk : j = k
        · rw [hjk]; exact hk
        · exact hz j h1 (by omega)
    · right
      refine ⟨k, Nat.lt_succ_self k, by simp only [scan_last_black, ne_eq, hk,
        not_false_eq_true, if_true], hk, ?_⟩
      intro j h1 h2
      omega

theorem scan_last_black_congr (l1 l2 : List Nat) (w : Nat)
    (h : ∀ j, j < w → l1.getD j 0 = l2.getD j 0) :
    scan_last_black l1 w = scan_last_black l2 w := by
  induction w with
  | zero => rfl
  | succ k ih =>
    simp only [scan_last_black, h k (Nat.lt_succ_self k),
      ih (fun j hj => h j (Nat.lt_succ_of_lt hj))]

theorem getD_take (l : List Nat) (w j : Nat) (hj : j < w) :
    (l.take w).getD j 0 = l.getD j 0 := by
  simp [List.getD_eq_getElem?_getD, List.getElem?_take, hj]

/-- The bytes of a non-blank line as `encode_line` writes them, given the highest
nonzero index below the width. -/
theorem encode_line_nonblank (line : List Nat) (w n i : Nat) (hw : w ≤ line.length)
    (hb : ∀ b ∈ line, b < 256) (hi : i < w) (hne : line.getD i 0 ≠ 0)
    (hz : ∀ j, i < j → j < w → line.getD j 0 = 0) :
    encode_line line (w : Int) n =
      some (flush_blank_lines n ++ [0x1b, 0x73, min (i + 1) 255] ++ line.take (i + 1), 0) := by
  have hs := scan_last_black_found line w i hi hne hz
  have hneg : ¬ ((i : Int) = -1) := by omega
  have htake : (line.take (i + 1)).map (fun b => b % 256) = line.take (i + 1) :=
    map_mod_256_of_bytes _ (fun b hb1 => hb b (List.mem_of_mem_take hb1))
  have hnat : ((i : Int) + 1).toNat = i + 1 := by omega
  simp only [encode_line, Int.toNat_ofNat, if_pos hw, hs, if_neg hneg, length_byte_eq,
    hnat, htake, List.append_assoc, List.cons_append, List.nil_append]

/-- C25: trimming is lossless.  For a non-blank line of bytes and a width `w` not
larger than the line, the payload written after the length byte, extended by
`w - last` zero bytes, is the first `w` bytes of the line, and its final byte is not
zero; a buffer that agrees with the line on the first `w` bytes gives the same
output. -/
theorem trimming_lossless (line : List Nat) (w n : Nat) (hw : w ≤ line.length)
    (hb : ∀ b ∈ line, b < 256) (hnb : ∃ i, i < w ∧ line.getD i 0 ≠ 0) :
    (∃ last payload,
      encode_line line (w : Int) n
        = some (flush_blank_lines n ++ [0x1b, 0x73, min last 255] ++ payload, 0) ∧
      payload.length = last ∧ last ≤ w ∧
      payload ++ List.replicate (w - last) 0 = line.take w ∧
      ∃ b, payload.getLast? = some b ∧ b ≠ 0) ∧
    (∀ other : List Nat, w ≤ other.length → other.take w = line.take w →
      encode_line other (w : Int) n = encode_line line (w : Int) n) := by
  rcases scan_last_black_cases line w with ⟨_, hz0⟩ | ⟨i, hi, hs, hne, hz⟩
  · obtain ⟨i, hi, hne⟩ := hnb
    exact absurd (hz0 i hi) hne
  · have hil : i < line.length := by omega
    constructor
    · refine ⟨i + 1, line.take (i + 1), encode_line_nonblank line w n i hw hb hi hne hz,
        by simp; omega, by omega, ?_, ?_⟩
      · apply List.ext_getElem
        · simp; omega
        · intro k h1 h2
          simp only [List.length_take] at h2
          have hkw : k < w := by omega
          have hkl : k < line.length := by omega
          by_cases hk : k < i + 1
          · rw [List.getElem_append_left (by simp; omega)]
            simp [List.getElem_take]
          · rw [List.getElem_append_right (by simp; omega)]
            have h0 := hz k (by omega) hkw
            rw [List.getD_eq_getElem?_getD, List.getElem?_eq_getElem hkl] at h0
            simp at h0
            simp [List.getElem_take, h0]
      · refine ⟨line.getD i 0, ?_, hne⟩
        rw [List.getLast?_eq_getElem?]
        simp only [List.length_take]
        have hmin : min (i + 1) line.length - 1 = i := by omega
        rw [hmin, List.getElem?_take, if_pos (Nat.lt_succ_self i),
          List.getD_eq_getElem?_getD, List.getElem?_eq_getElem hil]
        rfl
    · intro other hwo htake
      have hagree : ∀ j, j < w → other.getD j 0 = line.getD j 0 := by
        intro j hj
        rw [← getD_take other w j hj, ← getD_take line w j hj, htake]
      have hso : scan_last_black other w = scan_last_black line w :=
        scan_last_black_congr other line w hagree
      have hnat : ((i : Int) + 1).toNat = i + 1 := by omega
      have htk : other.take (i + 1) = line.take (i + 1) := by
        have h1 : other.take (i + 1) = (other.take w).take (i + 1) := by
          rw [List.take_take]; congr 1; omega
        have h2 : line.take (i + 1) = (line.take w).take (i + 1) := by
          rw [List.take_take]; congr 1; omega
        rw [h1, h2, htake]
      simp only [encode_line, Int.toNat_ofNat, if_pos hw, if_pos hwo, hso, hs, hnat, htk]

/-- Witness for `trimming_lossless`: the line `00 0F 00 00` at width 3. -/
theorem trimming_lossless_witness :
    ∃ last payload,
      encode_line [0, 0x0f, 0, 0] 3 0
        = some (flush_blank_lines 0 ++ [0x1b, 0x73, min last 255] ++ payload, 0) ∧
      payload.length = last ∧ last ≤ 3 ∧
      payload ++ List.replicate (3 - last) 0 = [0, 0x0f, 0, 0].take 3 ∧
      ∃ b, payload.getLast? = some b ∧ b ≠ 0 :=
  (trimming_lossless [0, 0x0f, 0, 0] 3 0 (by decide) (by decide)
    ⟨1, by decide, by decide⟩).1

theorem page_settings_bounds (settings : cups_settings_s) (header : cups_page_header2_t)
    (h0 : 0 ≤ settings.bytes_per_scanline)
    (h1 : settings.bytes_per_scanline ≤ settings.bytes_per_scanline_std) :
    (page_settings settings header).bytes_per_scanline_std = settings.bytes_per_scanline_std ∧
    0 ≤ (page_settings settings header).bytes_per_scanline ∧
    (page_settings settings header).bytes_per_scanline ≤ settings.bytes_per_scanline_std := by
  unfold page_settings negotiate_bytes_per_scanline
  split
  · rename_i hle
    simp only at hle
    refine ⟨rfl, ?_, ?_⟩
    · simp only
      omega
    · simp only
      omega
  · exact ⟨rfl, by simp only; omega, by simp only; omega⟩

/-- Every width with which a page is scanned lies between 0 and the standard width. -/
theorem scan_widths_bounds (headers : List cups_page_header2_t) (settings : cups_settings_s)
    (h0 : 0 ≤ settings.bytes_per_scanline)
    (h1 : settings.bytes_per_scanline ≤ settings.bytes_per_scanline_std) :
    ∀ w ∈ scan_widths settings headers, 0 ≤ w ∧ w ≤ settings.bytes_per_scanline_std := by
  induction headers generalizing settings with
  | nil => intro w hw; simp [scan_widths] at hw
  | cons header rest ih =>
    intro w hw
    obtain ⟨hstd, hlo, hhi⟩ := page_settings_bounds settings header h0 h1
    by_cases he : header.cupsHeight = 0 ∨ header.cupsBytesPerLine = 0
    · simp [scan_widths, he] at hw
    · simp only [scan_widths, if_neg he, List.mem_cons] at hw
      rcases hw with hw | hw
      · rw [hw]
        exact ⟨hlo, hhi⟩
      · have := ih (page_settings settings header) hlo (by rw [hstd]; exact hhi) w hw
        rw [hstd] at this
        exact this

/-- C26: on a supported model (8200, 2000, 2100, 203, 7030) the width with which any
page is scanned stays between 0 and `bytes_per_scanline_std`, which is at most 216; so
a turn of the line loop at such a width either meets a blank line or writes `1B 73`,
a length byte `last <= 216` and exactly `last` raw bytes: the clamp to 255 is never
reached. -/
theorem length_clamp_unreachable (model_number : Int) (choice_index : String → Int)
    (headers : List cups_page_header2_t)
    (hm : model_number = 8200 ∨ model_number = 2000 ∨ model_number = 2100
      ∨ model_number = 203 ∨ model_number = 7030) :
    (initialize_settings model_number choice_index).bytes_per_scanline_std ≤ 216 ∧
    (∀ w ∈ scan_widths (initialize_settings model_number choice_index) headers,
      0 ≤ w ∧ w ≤ (initialize_settings model_number choice_index).bytes_per_scanline_std) ∧
    (∀ w ∈ scan_widths (initialize_settings model_number choice_index) headers,
      ∀ (raster_data : List Nat) (n : Nat), w.toNat ≤ raster_data.length →
        encode_line raster_data w n = some ([], n + 1) ∨
        ∃ last payload,
          encode_line raster_data w n
            = some (flush_blank_lines n ++ [0x1b, 0x73, last] ++ payload, 0) ∧
          payload.length = last ∧ 1 ≤ last ∧ last ≤ 216) := by
  have hstd : (initialize_settings model_number choice_index).bytes_per_scanline_std
      = model_bytes_per_scanline model_number := rfl
  have hbps : (initialize_settings model_number choice_index).bytes_per_scanline
      = model_bytes_per_scanline model_number := rfl
  have hval : 0 ≤ model_bytes_per_scanline model_number
      ∧ model_bytes_per_scanline model_number ≤ 216 := by
    unfold model_bytes_per_scanline
    rcases hm with h | h | h | h | h <;> subst h <;> decide
  have hbound := scan_widths_bounds headers (initialize_settings model_number choice_index)
    (by rw [hbps]; exact hval.1) (by rw [hbps, hstd])
  refine ⟨by rw [hstd]; exact hval.2, hbound, ?_⟩
  intro w hw raster_data n hlen
  obtain ⟨hw0, hw1⟩ := hbound w hw
  rw [hstd] at hw1
  have hw216 : w.toNat ≤ 216 := by omega
  rcases scan_last_black_cases raster_data w.toNat with ⟨hs, _⟩ | ⟨i, hi, hs, _, _⟩
  · left
    simp only [encode_line, if_pos hlen, hs, if_true]
  · right
    have hneg : ¬ ((i : Int) = -1) := by omega
    have hnat : ((i : Int) + 1).toNat = i + 1 := by omega
    have hbyte : to_byte (if (i : Int) + 1 > 254 then 255 else (i : Int) + 1) = i + 1 := by
      rw [length_byte_eq]
      omega
    refine ⟨i + 1, (raster_data.take (i + 1)).map (fun b => b % 256), ?_, ?_, by omega,
      by omega⟩
    · simp only [encode_line, if_pos hlen, hs, if_neg hneg, hnat, hbyte, List.append_assoc,
        List.cons_append, List.nil_append]
    · simp only [List.length_map, List.length_take]
      omega

/-- Witness for `length_clamp_unreachable`: model 8200, whose standard width is 216. -/
theorem length_clamp_unreachable_witness :
    (initialize_settings 8200 (fun _ => 0)).bytes_per_scanline_std ≤ 216 ∧
    (∀ w ∈ scan_widths (initialize_settings 8200 (fun _ => 0)) [⟨5, 300⟩, ⟨5, 40⟩, ⟨5, 60⟩],
      0 ≤ w ∧ w ≤ (initialize_settings 8200 (fun _ => 0)).bytes_per_scanline_std) :=
  ⟨(length_clamp_unreachable 8200 (fun _ => 0) [⟨5, 300⟩, ⟨5, 40⟩, ⟨5, 60⟩] (Or.inl rfl)).1,
   (length_clamp_unreachable 8200 (fun _ => 0) [⟨5, 300⟩, ⟨5, 40⟩, ⟨5, 60⟩] (Or.inl rfl)).2.1⟩

theorem do_advance_three_bytes (settings : cups_settings_s) :
    do_advance settings = [0x1b, 0x4a, advance_amount settings.model_number] ∧
    (advance_amount settings.model_number = 96 ∨ advance_amount settings.model_number = 136
      ∨ advance_amount settings.model_number = 152) := by
  have hval : advance_amount settings.model_number = 96
      ∨ advance_amount settings.model_number = 136
      ∨ advance_amount settings.model_number = 152 := by
    unfold advance_amount
    split
    · right; right; rfl
    · split
      · left; rfl
      · split
        · right; left; rfl
        · right; right; rfl
  refine ⟨?_, hval⟩
  unfold do_advance
  rcases hval with h | h | h <;> rw [h] <;> rfl

/-- C27: with `page_cut_type` 0 or 1, `end_page` followed by `end_job` writes the
end-of-page command `1B 1E` exactly once: `end_page` writes it after the advance
command when `page_cut_type = 1` and `partial_cut = 0`, and then `end_job` does not;
in every other case `end_page` writes at most a partial-cut command after the advance
command and `end_job` starts with `1B 1E`.  In the bytes of the two together `1B 1E`
occurs at exactly one position. -/
theorem one_page_job_cut_once (settings : cups_settings_s)
    (hpct : settings.page_cut_type = 0 ∨ settings.page_cut_type = 1) :
    (settings.page_cut_type = 1 ∧ settings.partial_cut = 0 →
      end_page settings = do_advance settings ++ [0x1b, 0x1e] ∧
      end_job settings =
        (if settings.clear_presenter = 1 then [0x05] else do_eject settings)) ∧
    (¬ (settings.page_cut_type = 1 ∧ settings.partial_cut = 0) →
      (end_page settings = do_advance settings
        ∨ end_page settings = do_advance settings ++ [0x1f, to_byte settings.partial_cut]
        ∨ end_page settings = do_advance settings ++ [0x1f]) ∧
      end_job settings = [0x1b, 0x1e] ++
        (if settings.clear_presenter = 1 then [0x05] else do_eject settings)) ∧
    command_count [0x1b, 0x1e] (end_page settings ++ end_job settings) = 1 := by
  have hcmd : output_command endPageCommand = [0x1b, 0x1e] := by decide
  have hclr : output_command clear_presenterCommand = [0x05] := by decide
  obtain ⟨hadv, hamt⟩ := do_advance_three_bytes settings
  have hcase1 : settings.page_cut_type = 1 ∧ settings.partial_cut = 0 →
      end_page settings = do_advance settings ++ [0x1b, 0x1e] ∧
      end_job settings =
        (if settings.clear_presenter = 1 then [0x05] else do_eject settings) := by
    rintro ⟨h1, h2⟩
    have hne : ¬ (settings.page_cut_type = 0 ∨ settings.partial_cut ≠ 0) := by
      rintro (h | h)
      · omega
      · exact h h2
    exact ⟨by simp only [end_page, if_pos h1, if_pos h2, hcmd],
      by simp only [end_job, if_neg hne, hclr, List.nil_append]⟩
  have hcase2 : ¬ (settings.page_cut_type = 1 ∧ settings.partial_cut = 0) →
      (end_page settings = do_advance settings
        ∨ end_page settings = do_advance settings ++ [0x1f, to_byte settings.partial_cut]
        ∨ end_page settings = do_advance settings ++ [0x1f]) ∧
      end_job settings = [0x1b, 0x1e] ++
        (if settings.clear_presenter = 1 then [0x05] else do_eject settings) := by
    intro hn
    have hjob : settings.page_cut_type = 0 ∨ settings.partial_cut ≠ 0 := by
      rcases hpct with h | h
      · exact Or.inl h
      · exact Or.inr (fun h0 => hn ⟨h, h0⟩)
    refine ⟨?_, by simp only [end_job, if_pos hjob, hcmd, hclr]⟩
    rcases hpct with h | h
    · left
      have h1 : ¬ settings.page_cut_type = 1 := by omega
      simp only [end_page, if_neg h1, List.append_nil]
    · have hp : ¬ settings.partial_cut = 0 := fun h0 => hn ⟨h, h0⟩
      by_cases hm : settings.model_number = 203
      · right; left
        simp only [end_page, if_pos h, if_neg hp, if_pos hm]
      · right; right
        simp only [end_page, if_pos h, if_neg hp, if_neg hm]
  refine ⟨hcase1, hcase2, ?_⟩
  have htl : (if settings.clear_presenter = 1 then [0x05] else do_eject settings) = [0x05]
      ∨ ∃ e, (if settings.clear_presenter = 1 then [0x05] else do_eject settings)
          = [0x1b, 0x0c, e] := by
    split
    · exact Or.inl rfl
    · right
      simp only [do_eject]
      split
      · exact ⟨0x1e, rfl⟩
      · exact ⟨_, rfl⟩
  by_cases hc : settings.page_cut_type = 1 ∧ settings.partial_cut = 0
  · obtain ⟨h1, h2⟩ := hcase1 hc
    rw [h1, h2, hadv]
    rcases htl with h | ⟨e, h⟩ <;> rw [h] <;>
      rcases hamt with ha | ha | ha <;> rw [ha] <;>
      simp [command_count, List.isPrefixOf]
  · obtain ⟨h1, h2⟩ := hcase2 hc
    rw [hadv] at h1
    rw [h2]
    rcases htl with h | ⟨e, h⟩ <;> rw [h] <;>
      rcases h1 with h1 | h1 | h1 <;> rw [h1] <;>
      rcases hamt with ha | ha | ha <;> rw [ha] <;>
      simp [command_count, List.isPrefixOf]

/-- Witness for `one_page_job_cut_once`: cut per page without partial cut, model 2000. -/
theorem one_page_job_cut_once_witness :
    command_count [0x1b, 0x1e]
      (end_page { zero_settings with model_number := 2000, page_cut_type := 1 }
        ++ end_job { zero_settings with model_number := 2000, page_cut_type := 1 }) = 1 :=
  (one_page_job_cut_once { zero_settings with model_number := 2000, page_cut_type := 1 }
    (Or.inr rfl)).2.2

/-! ## The page-size token: rejected characters and the accepted language -/

/-- The token `X`, 21 digits `1`, `Y1M`: the 21 digits are stored, the parser ends in
the complete state, and `page_width` is the `float` that `atof` and the assignment
make of the 21-digit numeral. -/
theorem overlong_width_complete :
    parse_page_size ('X' :: (List.replicate 21 '1' ++ 'Y' :: (['1'] ++ 'M' :: []))) 0 [] []
      = ⟨3, List.replicate 21 '1', ['1']⟩ ∧
    get_pagewidth_pageheight ('X' :: (List.replicate 21 '1' ++ 'Y' :: (['1'] ++ 'M' :: [])))
      = (c_float.finite 111111112360531591168, c_float.finite 1) := by
  refine ⟨by decide, by decide!⟩

end Zebra
